import Mathlib

/-!
Wi-Fi global helper functions
==============================

A shallow embedding of `wifi_global_func.cpp`
(`services/wifi_standard/wifi_framework/common/utils`) and the properties of
its hotspot-configuration validator, band/channel self-correction,
frequency conversion, string splitting, MAC address check, scan policy,
connection-state mapping and random strings, together with the listener
registry declared in `wifi_event.h`.

Conventions of the embedding:

* a `std::string` is the list of its `char`s, `length()` is `List.length`;
* `int` / `int32_t` values are `Int`; C++ `/` and `%` are `Int.tdiv` and
  `Int.tmod` (truncation).  The arithmetic of the source runs on operands for
  which no 32-bit overflow can occur, with one exception that is modelled in
  two's complement: `std::abs` on the cast of a random draw (`stdAbs`);
* a `std::map` is an association list read through `find`; `operator[]`
  returns the mapped value together with the map it leaves behind;
* a function that writes through a reference parameter returns the new value
  of that parameter.
-/

namespace OHOS.Wifi

/-! ## Data model -/

/-- Result codes returned by the functions of `wifi_global_func.cpp`. -/
inductive ErrCode where
  | WIFI_OPT_SUCCESS
  | WIFI_OPT_INVALID_PARAM
  deriving DecidableEq, Repr

/-- Modelled from the spec: the enumeration `KeyMgmt` is declared in a header
that is not part of the sources at hand.  The code names `NONE`, `WPA_PSK`
and `WPA2_PSK`; the spec lists the security type as one of
"Open, WPA-PSK, WPA2-PSK, …", so every further enumerator is `other n`. -/
inductive KeyMgmt where
  | NONE
  | WPA_PSK
  | WPA2_PSK
  | other (n : Nat)
  deriving DecidableEq, Repr

/-- Modelled from the spec: the enumeration `BandType` is declared in a header
that is not part of the sources at hand.  The code names `BAND_2GHZ`; the spec
lists the band as one of "2.4 GHz, 5 GHz, …", so every further enumerator is
`other n`. -/
inductive BandType where
  | BAND_2GHZ
  | BAND_5GHZ
  | other (n : Nat)
  deriving DecidableEq, Repr

/-- Modelled from the spec: the class `HotspotConfig` is declared in a header
that is not part of the sources at hand.  The fields are the ones read through
`GetSsid`, `GetPreSharedKey`, `GetSecurityType`, `GetBand`, `GetChannel` and
written through `SetBand`, `SetChannel`. -/
structure HotspotConfig where
  ssid : List Char
  preSharedKey : List Char
  securityType : KeyMgmt
  band : BandType
  channel : Int
  deriving DecidableEq, Repr

/-- The length limits and the default channel are macros of a header that is
not part of the sources at hand; the functions take them as a parameter.  The
lengths are compared with `std::string::length()`, an unsigned quantity. -/
structure WifiDefs where
  MIN_SSID_LEN : Nat
  MAX_SSID_LEN : Nat
  MIN_PSK_LEN : Nat
  MAX_PSK_LEN : Nat
  AP_CHANNEL_DEFAULT : Int
  deriving DecidableEq, Repr

/-- The table `std::map<BandType, std::vector<int32_t>>`: one entry per band
key.  Only `find` and `operator[]` are used on it, never iteration, so the
position of an entry in the list is not observable. -/
abbrev ChannelsTable := List (BandType × List Int)

/-- The member `std::map::find`: the mapped value of the entry with key
`band`, `none` for `end()`. -/
def ChannelsTable.find : ChannelsTable → BandType → Option (List Int)
  | [], _ => none
  | (k, v) :: rest, band => if k = band then some v else ChannelsTable.find rest band

/-- The member `std::map::operator[]`: the mapped value of `band`; when the
key is absent an entry with a value-initialised (empty) vector is inserted
first.  Returns the value and the resulting map. -/
def ChannelsTable.index (tbl : ChannelsTable) (band : BandType) : List Int × ChannelsTable :=
  match tbl.find band with
  | some v => (v, tbl)
  | none => ([], tbl ++ [(band, [])])

/-! ## Hotspot configuration validator -/

def CfgCheckSsid (d : WifiDefs) (cfg : HotspotConfig) : ErrCode :=
  if cfg.ssid.length < d.MIN_SSID_LEN ∨ cfg.ssid.length > d.MAX_SSID_LEN then
    ErrCode.WIFI_OPT_INVALID_PARAM
  else
    ErrCode.WIFI_OPT_SUCCESS

def CfgCheckPsk (d : WifiDefs) (cfg : HotspotConfig) : ErrCode :=
  if cfg.preSharedKey.length < d.MIN_PSK_LEN ∨ cfg.preSharedKey.length > d.MAX_PSK_LEN then
    ErrCode.WIFI_OPT_INVALID_PARAM
  else
    ErrCode.WIFI_OPT_SUCCESS

/-- The iterator loop of `CfgCheckBand`: success at the first equal element. -/
def CfgCheckBand (cfg : HotspotConfig) : List BandType → ErrCode
  | [] => ErrCode.WIFI_OPT_INVALID_PARAM
  | b :: rest => if cfg.band = b then ErrCode.WIFI_OPT_SUCCESS else CfgCheckBand cfg rest

/-- The algorithm `std::find` on a vector: `true` when the returned iterator
is not `end()`. -/
def stdFind : List Int → Int → Bool
  | [], _ => false
  | x :: rest, v => if x = v then true else stdFind rest v

/-- The table is passed by non-const reference and read with `operator[]`, so
the function returns the table it leaves behind as well. -/
def CfgCheckChannel (cfg : HotspotConfig) (channInfoFromCenter : ChannelsTable) :
    ErrCode × ChannelsTable :=
  let r := channInfoFromCenter.index cfg.band
  let channels := r.1
  (if stdFind channels cfg.channel then ErrCode.WIFI_OPT_SUCCESS
   else ErrCode.WIFI_OPT_INVALID_PARAM, r.2)

/-- Lines 86-98 of the validator: the band check and the channel check, run
once the SSID and the key have been accepted. -/
def IsValidHotspotConfig.bandAndChannel (cfg cfgFromCenter : HotspotConfig)
    (bandsFromCenter : List BandType) (channInfoFromCenter : ChannelsTable) :
    ErrCode × ChannelsTable :=
  if cfg.band ≠ cfgFromCenter.band ∧
      CfgCheckBand cfg bandsFromCenter = ErrCode.WIFI_OPT_INVALID_PARAM then
    (ErrCode.WIFI_OPT_INVALID_PARAM, channInfoFromCenter)
  else if cfg.channel ≠ cfgFromCenter.channel then
    let r := CfgCheckChannel cfg channInfoFromCenter
    if r.1 = ErrCode.WIFI_OPT_INVALID_PARAM then
      (ErrCode.WIFI_OPT_INVALID_PARAM, r.2)
    else
      (ErrCode.WIFI_OPT_SUCCESS, r.2)
  else
    (ErrCode.WIFI_OPT_SUCCESS, channInfoFromCenter)

/-- The validator.  The second component is the channels table after the
call. -/
def IsValidHotspotConfig (d : WifiDefs) (cfg cfgFromCenter : HotspotConfig)
    (bandsFromCenter : List BandType) (channInfoFromCenter : ChannelsTable) :
    ErrCode × ChannelsTable :=
  if CfgCheckSsid d cfg = ErrCode.WIFI_OPT_INVALID_PARAM then
    (ErrCode.WIFI_OPT_INVALID_PARAM, channInfoFromCenter)
  else if cfg.securityType = KeyMgmt.NONE then
    if cfg.preSharedKey.length > 0 then
      (ErrCode.WIFI_OPT_INVALID_PARAM, channInfoFromCenter)
    else
      IsValidHotspotConfig.bandAndChannel cfg cfgFromCenter bandsFromCenter channInfoFromCenter
  else if cfg.securityType = KeyMgmt.WPA_PSK ∨ cfg.securityType = KeyMgmt.WPA2_PSK then
    if CfgCheckPsk d cfg = ErrCode.WIFI_OPT_INVALID_PARAM then
      (ErrCode.WIFI_OPT_INVALID_PARAM, channInfoFromCenter)
    else
      IsValidHotspotConfig.bandAndChannel cfg cfgFromCenter bandsFromCenter channInfoFromCenter
  else
    (ErrCode.WIFI_OPT_INVALID_PARAM, channInfoFromCenter)

/-! ## Band/channel self-correction -/

/-- The inner loop of `CheckBandChannel`: `cfgValid` becomes `true` at the
first element equal to the channel, and the loop is left. -/
def CheckBandChannel.scan : List Int → Int → Bool
  | [], _ => false
  | c :: rest, channel => if c = channel then true else CheckBandChannel.scan rest channel

/-- The function writes `apConfig` in place; the embedding returns the
configuration after the call. -/
def CheckBandChannel (d : WifiDefs) (apConfig : HotspotConfig)
    (validChanTable : ChannelsTable) : HotspotConfig :=
  let cfgValid : Bool :=
    match validChanTable.find apConfig.band with
    | some chans =>
      if chans.length ≠ 0 then CheckBandChannel.scan chans apConfig.channel else false
    | none => false
  if !cfgValid then
    { apConfig with band := BandType.BAND_2GHZ, channel := d.AP_CHANNEL_DEFAULT }
  else
    apConfig

/-! ## Frequency conversion -/

def FREP_2G_MIN : Int := 2412
def FREP_2G_MAX : Int := 2472
def FREP_5G_MIN : Int := 5170
def FREP_5G_MAX : Int := 5825
def CHANNEL_14_FREP : Int := 2484
def CHANNEL_14 : Int := 14
def CENTER_FREP_DIFF : Int := 5
def CHANNEL_2G_MIN : Int := 1
def CHANNEL_5G_MIN : Int := 34

/-- One iteration of the loop of `TransformFrequencyIntoChannel`: the output
vector after the element `freq` has been handled (`continue` leaves it as it
is). -/
def TransformFrequencyIntoChannel.step (chanVector : List Int) (freq : Int) : List Int :=
  if freq ≥ FREP_2G_MIN ∧ freq ≤ FREP_2G_MAX then
    chanVector ++ [Int.tdiv (freq - FREP_2G_MIN) CENTER_FREP_DIFF + CHANNEL_2G_MIN]
  else if freq = CHANNEL_14_FREP then
    chanVector ++ [CHANNEL_14]
  else if freq ≥ FREP_5G_MIN ∧ freq ≤ FREP_5G_MAX then
    chanVector ++ [Int.tdiv (freq - FREP_5G_MIN) CENTER_FREP_DIFF + CHANNEL_5G_MIN]
  else
    chanVector

/-- The index loop over `freqVector`, appending to `chanVector`; returns the
output vector after the call. -/
def TransformFrequencyIntoChannel (freqVector : List Int) (chanVector : List Int) : List Int :=
  freqVector.foldl TransformFrequencyIntoChannel.step chanVector

def IsValid24GHz (freq : Int) : Bool :=
  decide (freq > 2400) && decide (freq < 2500)

def IsValid5GHz (freq : Int) : Bool :=
  decide (freq > 4900) && decide (freq < 5900)

/-! ## String splitting -/

/-- The search of `std::string::find` over the text `s` that starts at
position `p` of the string: the lowest position at which `split` begins. -/
def stdStringFind.go (split : List Char) : List Char → Nat → Option Nat
  | [], p => if split.isPrefixOf [] then some p else none
  | c :: cs, p => if split.isPrefixOf (c :: cs) then some p else stdStringFind.go split cs (p + 1)

/-- The member `std::string::find(split, pos)`: the lowest position `≥ pos`
at which `split` occurs in `str`; `none` is `npos`. -/
def stdStringFind (str split : List Char) (pos : Nat) : Option Nat :=
  if pos > str.length then none else stdStringFind.go split (str.drop pos) pos

/-- The member `std::string::substr(pos, n)` for `pos ≤ size()`. -/
def substr (str : List Char) (pos n : Nat) : List Char :=
  (str.drop pos).take n

/-- The `while` loop of `SplitString` followed by the handling of the
remainder.  `fuel` bounds the number of loop tests; `none` means the bound was
reached. -/
def SplitString.loop (str split : List Char) :
    Nat → Nat → List (List Char) → Option (List (List Char))
  | 0, _, _ => none
  | fuel + 1, begPos, vec =>
    match stdStringFind str split begPos with
    | some endPos =>
      let vec1 :=
        if endPos > begPos then vec ++ [substr str begPos (endPos - begPos)] else vec
      SplitString.loop str split fuel (endPos + split.length) vec1
    | none =>
      let tmpStr := str.drop begPos
      some (if tmpStr ≠ [] then vec ++ [tmpStr] else vec)

/-- The function appends to `vec`; the embedding returns the vector after the
call.  Every loop round moves `begPos` forward by at least one position, so
`str.length + 1` loop tests are enough (`SplitString_returns`). -/
def SplitString (str split : List Char) (vec : List (List Char)) :
    Option (List (List Char)) :=
  if split.isEmpty then
    some (vec ++ [str])
  else
    SplitString.loop str split (str.length + 1) 0 vec

/-! ## MAC address syntax -/

/-- Modelled from the spec: the macro `MAC_STRING_SIZE` belongs to a header
that is not part of the sources at hand; the spec fixes the canonical form
`XX:XX:XX:XX:XX:XX` of exactly 17 characters. -/
def MAC_STRING_SIZE : Nat := 17

/-- The value of a hexadecimal digit, `-1` for any other character. -/
def IsValidHexCharAndConvert (c : Char) : Int :=
  if c ≥ '0' ∧ c ≤ '9' then
    (c.toNat : Int) - ('0'.toNat : Int)
  else if c ≥ 'a' ∧ c ≤ 'f' then
    (c.toNat : Int) - ('a'.toNat : Int) + (('9'.toNat : Int) - ('0'.toNat : Int) + 1)
  else if c ≥ 'A' ∧ c ≤ 'F' then
    (c.toNat : Int) - ('A'.toNat : Int) + (('9'.toNat : Int) - ('0'.toNat : Int) + 1)
  else
    -1

/-- The `for` loop of `CheckMacIsValid` with its two counters `i` and `j`; the
first argument is the number of rounds left, `MAC_STRING_SIZE - i`. -/
def CheckMacIsValid.loop (macStr : List Char) : Nat → Nat → Nat → Int
  | 0, _, _ => 0
  | rounds + 1, i, j =>
    if j = 0 ∨ j = 1 then
      if IsValidHexCharAndConvert (macStr.getD i (Char.ofNat 0)) < 0 then -1
      else CheckMacIsValid.loop macStr rounds (i + 1) (j + 1)
    else
      if macStr.getD i (Char.ofNat 0) ≠ ':' then -1
      else CheckMacIsValid.loop macStr rounds (i + 1) 0

def CheckMacIsValid (macStr : List Char) : Int :=
  if macStr.length ≠ MAC_STRING_SIZE then -1
  else CheckMacIsValid.loop macStr MAC_STRING_SIZE 0 0

/-! ## Scan policy -/

/-- Modelled from the spec: the enumeration `ScanMode` is declared in a header
that is not part of the sources at hand.  The code names `ANYTIME_SCAN`; every
further enumerator is `other n`. -/
inductive ScanMode where
  | ANYTIME_SCAN
  | other (n : Nat)
  deriving DecidableEq, Repr

/-- Modelled from the spec: a forbid-rule, "each rule carrying a scan mode";
the structure is declared in a header that is not part of the sources at
hand. -/
structure ScanForbidMode where
  scanMode : ScanMode
  deriving DecidableEq, Repr

/-- Modelled from the spec: the snapshot `ScanControlInfo`, a "mapping from
scan scene (including a wildcard key) to a set of forbidden-scan rules",
declared in a header that is not part of the sources at hand.  The
`std::map` is the list of its entries in iteration order, which for an
ordered map is the ascending order of the integer scene keys. -/
structure ScanControlInfo where
  scanForbidMap : List (Int × List ScanForbidMode)
  deriving DecidableEq, Repr

/-- The member `std::map::find` as an iterator: the entries from the one with
key `scene` up to the end of the map, the empty list for `end()`. -/
def scanForbidMapFind : List (Int × List ScanForbidMode) → Int →
    List (Int × List ScanForbidMode)
  | [], _ => []
  | entry :: rest, scene =>
    if entry.1 = scene then entry :: rest else scanForbidMapFind rest scene

/-- The inner loop of `IsAllowScanAnyTime` over the rules of one entry:
`true` when a rule with mode `ANYTIME_SCAN` makes the function return. -/
def IsAllowScanAnyTime.rules : List ScanForbidMode → Bool
  | [] => false
  | rule :: rest =>
    if rule.scanMode = ScanMode.ANYTIME_SCAN then true else IsAllowScanAnyTime.rules rest

/-- The outer loop of `IsAllowScanAnyTime`: the iterator `forbidIter` is
advanced until `end()`. -/
def IsAllowScanAnyTime.entries : List (Int × List ScanForbidMode) → Bool
  | [] => true
  | entry :: rest =>
    if IsAllowScanAnyTime.rules entry.2 then false else IsAllowScanAnyTime.entries rest

/-- The wildcard key `SCAN_SCENE_ALL` is a macro of a header that is not part
of the sources at hand; the function takes it as a parameter. -/
def IsAllowScanAnyTime (SCAN_SCENE_ALL : Int) (info : ScanControlInfo) : Bool :=
  IsAllowScanAnyTime.entries (scanForbidMapFind info.scanForbidMap SCAN_SCENE_ALL)

/-! ## Connection state mapping -/

/-- Modelled from the spec: the enumeration `OperateResState` is declared in a
header that is not part of the sources at hand.  The fourteen enumerators
named by the code are listed; every further enumerator is `other n`. -/
inductive OperateResState where
  | CONNECT_CONNECTING
  | CONNECT_AP_CONNECTED
  | CONNECT_CHECK_PORTAL
  | CONNECT_NETWORK_ENABLED
  | CONNECT_NETWORK_DISABLED
  | DISCONNECT_DISCONNECTING
  | DISCONNECT_DISCONNECT_FAILED
  | DISCONNECT_DISCONNECTED
  | CONNECT_PASSWORD_WRONG
  | CONNECT_CONNECTING_TIMEOUT
  | CONNECT_OBTAINING_IP
  | CONNECT_OBTAINING_IP_FAILED
  | CONNECT_ASSOCIATING
  | CONNECT_ASSOCIATED
  | other (n : Nat)
  deriving DecidableEq, Repr

/-- Modelled from the spec: the enumeration `ConnectionState` is declared in a
header that is not part of the sources at hand; the enumerators are the ones
the code returns. -/
inductive ConnectionState where
  | CONNECT_CONNECTING
  | CONNECT_AP_CONNECTED
  | CONNECT_CHECK_PORTAL
  | CONNECT_NETWORK_ENABLED
  | CONNECT_NETWORK_DISABLED
  | DISCONNECT_DISCONNECTING
  | DISCONNECT_DISCONNECT_FAILED
  | DISCONNECT_DISCONNECTED
  | CONNECT_PASSWORD_WRONG
  | CONNECT_CONNECTING_TIMEOUT
  | CONNECT_OBTAINING_IP
  | CONNECT_OBTAINING_IP_FAILED
  | CONNECT_ASSOCIATING
  | CONNECT_ASSOCIATED
  | UNKNOWN
  deriving DecidableEq, Repr

def ConvertConnStateInternal (resState : OperateResState) : ConnectionState :=
  match resState with
  | OperateResState.CONNECT_CONNECTING => ConnectionState.CONNECT_CONNECTING
  | OperateResState.CONNECT_AP_CONNECTED => ConnectionState.CONNECT_AP_CONNECTED
  | OperateResState.CONNECT_CHECK_PORTAL => ConnectionState.CONNECT_CHECK_PORTAL
  | OperateResState.CONNECT_NETWORK_ENABLED => ConnectionState.CONNECT_NETWORK_ENABLED
  | OperateResState.CONNECT_NETWORK_DISABLED => ConnectionState.CONNECT_NETWORK_DISABLED
  | OperateResState.DISCONNECT_DISCONNECTING => ConnectionState.DISCONNECT_DISCONNECTING
  | OperateResState.DISCONNECT_DISCONNECT_FAILED =>
    ConnectionState.DISCONNECT_DISCONNECT_FAILED
  | OperateResState.DISCONNECT_DISCONNECTED => ConnectionState.DISCONNECT_DISCONNECTED
  | OperateResState.CONNECT_PASSWORD_WRONG => ConnectionState.CONNECT_PASSWORD_WRONG
  | OperateResState.CONNECT_CONNECTING_TIMEOUT => ConnectionState.CONNECT_CONNECTING_TIMEOUT
  | OperateResState.CONNECT_OBTAINING_IP => ConnectionState.CONNECT_OBTAINING_IP
  | OperateResState.CONNECT_OBTAINING_IP_FAILED =>
    ConnectionState.CONNECT_OBTAINING_IP_FAILED
  | OperateResState.CONNECT_ASSOCIATING => ConnectionState.CONNECT_ASSOCIATING
  | OperateResState.CONNECT_ASSOCIATED => ConnectionState.CONNECT_ASSOCIATED
  | _ => ConnectionState.UNKNOWN

/-! ## Random strings -/

/-- Modelled from the spec: the macro `HEX_TYPE_LEN` belongs to a header that
is not part of the sources at hand; the spec describes "three classes
selected via a modulo-3 choice". -/
def HEX_TYPE_LEN : Int := 3

/-- The conversion `(int)rd()`: the 32-bit value returned by
`std::random_device`, read as a signed 32-bit integer. -/
def castToInt (v : Nat) : Int :=
  if v % 2 ^ 32 < 2 ^ 31 then ((v % 2 ^ 32 : Nat) : Int)
  else ((v % 2 ^ 32 : Nat) : Int) - 2 ^ 32

/-- The function `std::abs` on `int`.  The negation is done in 32-bit two's
complement, so the one value without a positive counterpart, `-2^31`, is
returned as it is. -/
def stdAbs (x : Int) : Int :=
  if x < 0 then
    if -x < 2 ^ 31 then -x else -x - 2 ^ 32
  else x

/-- The `switch` of `GetRandomStr`: the character code stored in `rndbuf[n]`
for the number `rndnum`; `%` is the truncating remainder of C++. -/
def GetRandomStr.pick (rndnum : Int) : Int :=
  if Int.tmod rndnum HEX_TYPE_LEN = 0 then
    Int.tmod rndnum (('z'.toNat : Int) - ('a'.toNat : Int) + 1) + ('a'.toNat : Int)
  else if Int.tmod rndnum HEX_TYPE_LEN = 1 then
    Int.tmod rndnum (('Z'.toNat : Int) - ('A'.toNat : Int) + 1) + ('A'.toNat : Int)
  else
    Int.tmod rndnum (('9'.toNat : Int) - ('0'.toNat : Int) + 1) + ('0'.toNat : Int)

/-- The `for` loop of `GetRandomStr`: `count` rounds starting at index `n`,
each drawing one value from the random source (`rd n` is the value of the
draw of round `n`) and storing a character code in `rndbuf[n]`. -/
def GetRandomStr.fill (rd : Nat → Nat) : List Int → Nat → Nat → List Int
  | rndbuf, _, 0 => rndbuf
  | rndbuf, n, count + 1 =>
    GetRandomStr.fill rd (rndbuf.set n (GetRandomStr.pick (stdAbs (castToInt (rd n)))))
      (n + 1) count

/-- The buffer `rndbuf` holds `MAX_PSK_LEN + 1` zero bytes at first; the
result is the C string in it, the characters in front of the first zero
byte.  Every code the loop stores lies between 0 and 127, so the narrowing to
`char` keeps it. -/
def GetRandomStr (d : WifiDefs) (rd : Nat → Nat) (len : Int) : List Char :=
  let len1 : Int := if len > (d.MAX_PSK_LEN : Int) then (d.MAX_PSK_LEN : Int) else len
  let rndbuf := GetRandomStr.fill rd (List.replicate (d.MAX_PSK_LEN + 1) 0) 0 len1.toNat
  (rndbuf.takeWhile (fun code => code ≠ 0)).map (fun code => Char.ofNat code.toNat)

/-! ## Reference definitions taken from the specification -/

/-- Channel of a frequency as the specification words it, with the
mathematical (floor) integer division; `none` for a dropped frequency. -/
def specChannel (f : Int) : Option Int :=
  if 2412 ≤ f ∧ f ≤ 2472 then some ((f - 2412) / 5 + 1)
  else if f = 2484 then some 14
  else if 5170 ≤ f ∧ f ≤ 5825 then some ((f - 5170) / 5 + 34)
  else none

/-- The leftmost occurrence of `split` in `s`: the piece before it and the
text immediately after it. -/
def firstOccurrence (split : List Char) : List Char → Option (List Char × List Char)
  | [] => if split.isPrefixOf [] then some ([], []) else none
  | c :: cs =>
    if split.isPrefixOf (c :: cs) then some ([], (c :: cs).drop split.length)
    else (firstOccurrence split cs).map (fun r => (c :: r.1, r.2))

/-- The pieces of `s` between successive occurrences of `split`, scanning left
to right and resuming each search immediately after the previous occurrence;
the last piece is the remainder after the last occurrence.  `n` bounds the
number of occurrences. -/
def specPieces (split : List Char) : Nat → List Char → List (List Char)
  | 0, s => [s]
  | n + 1, s =>
    match firstOccurrence split s with
    | some (piece, rest) => piece :: specPieces split n rest
    | none => [s]

/-- The splitting of the specification for a non-empty delimiter: the
non-empty pieces, in order. -/
def specSplit (str split : List Char) : List (List Char) :=
  (specPieces split str.length str).filter (fun piece => piece ≠ [])

/-- A hexadecimal digit as the specification words it: `0-9`, `a-f` or
`A-F`. -/
def isHexDigit (c : Char) : Bool :=
  (decide ('0' ≤ c) && decide (c ≤ '9')) || (decide ('a' ≤ c) && decide (c ≤ 'f')) ||
    (decide ('A' ≤ c) && decide (c ≤ 'F'))

/-- What the canonical form asks of the character at position `idx` when
`idx` is congruent to `m` modulo 3: a colon closes each group of three
positions, the two positions in front of it hold hexadecimal digits. -/
def macCharOk (macStr : List Char) (idx m : Nat) : Prop :=
  if m % 3 = 2 then macStr.getD idx (Char.ofNat 0) = ':'
  else isHexDigit (macStr.getD idx (Char.ofNat 0)) = true

/-- A lowercase letter, an uppercase letter or a decimal digit, as a character
code. -/
def isAlnumCode (code : Int) : Bool :=
  (decide (97 ≤ code) && decide (code ≤ 122)) || (decide (65 ≤ code) && decide (code ≤ 90)) ||
    (decide (48 ≤ code) && decide (code ≤ 57))

/-! ## Event listener registry -/

/-- The structure `WifiEvent` of `wifi_event.h`: five callback pointers, one
per event kind; `none` is the `NULL` pointer, `some a` a function at
address `a`. -/
structure WifiEvent where
  OnWifiConnectionChanged : Option Nat
  OnWifiScanStateChanged : Option Nat
  OnHotspotStateChanged : Option Nat
  OnHotspotStaJoin : Option Nat
  OnHotspotStaLeave : Option Nat
  deriving DecidableEq, Repr

def WIFI_MAX_EVENT_SIZE : Nat := 10

/-- Modelled from the spec: the enumeration `WifiErrorCode` is declared in a
header that is not part of the sources at hand.  The spec gives the codes of
the registry as success, listener-table-full and listener-not-found. -/
inductive WifiErrorCode where
  | WIFI_SUCCESS
  | ListenerTableFull
  | ListenerNotFound
  deriving DecidableEq, Repr

/-- Modelled from the spec: the `EventListenerSet`, "a fixed-capacity (10)
collection of listener bundles"; each slot is Empty (`none`) or Registered.
The implementation of the registry is not part of the sources at hand. -/
abbrev EventListenerSet := List (Option WifiEvent)

/-- Modelled from the spec: the registry "created empty at process start",
all `WIFI_MAX_EVENT_SIZE` slots Empty. -/
def EventListenerSet.empty : EventListenerSet :=
  List.replicate WIFI_MAX_EVENT_SIZE none

/-- The number of Registered slots. -/
def EventListenerSet.occupied (slots : EventListenerSet) : Nat :=
  (slots.filter Option.isSome).length

/-- Modelled from the spec: "inserts the bundle into the first Empty slot". -/
def EventListenerSet.fillFirstEmpty : EventListenerSet → WifiEvent → EventListenerSet
  | [], _ => []
  | none :: rest, event => some event :: rest
  | some other :: rest, event => some other :: EventListenerSet.fillFirstEmpty rest event

/-- Modelled from the spec: "removes the first slot whose set of non-null
callback pointers exactly equals the bundle's"; `none` when no slot
matches. -/
def EventListenerSet.removeFirst : EventListenerSet → WifiEvent → Option EventListenerSet
  | [], _ => none
  | none :: rest, event => (EventListenerSet.removeFirst rest event).map (fun r => none :: r)
  | some other :: rest, event =>
    if other = event then some (none :: rest)
    else (EventListenerSet.removeFirst rest event).map (fun r => some other :: r)

/-- Modelled from the spec: `Register(bundle)` "fails with `Full` once
`WIFI_MAX_EVENT_SIZE` (10) slots are occupied.  Otherwise inserts the bundle
into the first Empty slot"; no de-duplication.  Only the declaration of
`RegisterWifiEvent` is part of the sources at hand.  Returns the code and the
registry after the call. -/
def RegisterWifiEvent (slots : EventListenerSet) (event : WifiEvent) :
    WifiErrorCode × EventListenerSet :=
  if slots.occupied ≥ WIFI_MAX_EVENT_SIZE then
    (WifiErrorCode.ListenerTableFull, slots)
  else
    (WifiErrorCode.WIFI_SUCCESS, slots.fillFirstEmpty event)

/-- Modelled from the spec: `Unregister(bundle)` "scans registered slots;
removes the first slot whose set of non-null callback pointers exactly equals
the bundle's; fails with `NotFound` if none match".  Only the declaration of
`UnRegisterWifiEvent` is part of the sources at hand.  Returns the code and
the registry after the call. -/
def UnRegisterWifiEvent (slots : EventListenerSet) (event : WifiEvent) :
    WifiErrorCode × EventListenerSet :=
  match slots.removeFirst event with
  | some slots1 => (WifiErrorCode.WIFI_SUCCESS, slots1)
  | none => (WifiErrorCode.ListenerNotFound, slots)

/-- A run of registrations, one after the other; `none` as soon as one of
them does not return `WIFI_SUCCESS`. -/
def registerAll : EventListenerSet → List WifiEvent → Option EventListenerSet
  | slots, [] => some slots
  | slots, event :: rest =>
    if (RegisterWifiEvent slots event).1 = WifiErrorCode.WIFI_SUCCESS then
      registerAll (RegisterWifiEvent slots event).2 rest
    else none

/-! ## Sample inputs -/

/-- The limits of the shipped header: SSID of 1 to 32 bytes, key of 8 to 63
bytes, default channel 6. -/
def sampleDefs : WifiDefs :=
  { MIN_SSID_LEN := 1, MAX_SSID_LEN := 32, MIN_PSK_LEN := 8, MAX_PSK_LEN := 63,
    AP_CHANNEL_DEFAULT := 6 }

/-- The configuration held by the centre in the examples. -/
def sampleCenter : HotspotConfig :=
  { ssid := ['h', 'o', 'm', 'e'], preSharedKey := [], securityType := KeyMgmt.NONE,
    band := BandType.BAND_2GHZ, channel := 6 }

/-- A table that lists channels for the 2.4 GHz band only. -/
def sampleTable : ChannelsTable :=
  [(BandType.BAND_2GHZ, [1, 6, 11])]

/-- An open configuration with an SSID of 33 characters and an empty key. -/
def sampleLongSsid : HotspotConfig :=
  { sampleCenter with ssid := List.replicate 33 'x' }

/-- An open configuration that carries a key. -/
def sampleOpenWithKey : HotspotConfig :=
  { sampleCenter with preSharedKey := ['s', 'e', 'c', 'r', 'e', 't', '1', '2'] }

/-- A WPA2 configuration on channel 11 of the 2.4 GHz band. -/
def sampleWpa2 : HotspotConfig :=
  { ssid := ['h', 'o', 'm', 'e'], preSharedKey := ['s', 'e', 'c', 'r', 'e', 't', '1', '2'],
    securityType := KeyMgmt.WPA2_PSK, band := BandType.BAND_2GHZ, channel := 11 }

/-- An open configuration asking for channel 36 of the 5 GHz band. -/
def sample5GHz : HotspotConfig :=
  { sampleCenter with band := BandType.BAND_5GHZ, channel := 36 }

/-- The configuration of the self-correction example: 5 GHz, channel 9999. -/
def sampleBadChannel : HotspotConfig :=
  { sampleCenter with band := BandType.BAND_5GHZ, channel := 9999 }

/-- The ten listener bundles of the registry example: bundle `i` listens to
connection changes with the callback at address `i + 1`. -/
def sampleBundles : List WifiEvent :=
  (List.range 10).map (fun i =>
    { OnWifiConnectionChanged := some (i + 1), OnWifiScanStateChanged := none,
      OnHotspotStateChanged := none, OnHotspotStaJoin := none, OnHotspotStaLeave := none })

/-- A further bundle, listening to hotspot state changes. -/
def sampleExtraBundle : WifiEvent :=
  { OnWifiConnectionChanged := none, OnWifiScanStateChanged := none,
    OnHotspotStateChanged := some 77, OnHotspotStaJoin := none, OnHotspotStaLeave := none }

/-- A scan-control snapshot with no rule under the wildcard scene `0` and an
anytime-scan rule under scene `1`. -/
def sampleScanControl : ScanControlInfo :=
  { scanForbidMap := [(0, []), (1, [{ scanMode := ScanMode.ANYTIME_SCAN }])] }

/-- A random source whose every draw is `0x80000000`. -/
def sampleDrawMin : Nat → Nat :=
  fun _ => 2147483648

/-- A configuration on the centre's channel 6 of the 5 GHz band, for which the
table lists nothing. -/
def sampleCenterChannel5GHz : HotspotConfig :=
  { sampleCenter with band := BandType.BAND_5GHZ }

/-! ## Auxiliary lemmas -/

theorem CfgCheckBand_success_iff (cfg : HotspotConfig) (bands : List BandType) :
    CfgCheckBand cfg bands = ErrCode.WIFI_OPT_SUCCESS ↔ cfg.band ∈ bands := by
  induction bands with
  | nil => simp [CfgCheckBand]
  | cons b rest ih =>
    unfold CfgCheckBand
    by_cases h : cfg.band = b
    · simp [h]
    · simp [h, ih]

theorem CfgCheckBand_invalid_iff (cfg : HotspotConfig) (bands : List BandType) :
    CfgCheckBand cfg bands = ErrCode.WIFI_OPT_INVALID_PARAM ↔ cfg.band ∉ bands := by
  rw [← CfgCheckBand_success_iff]
  cases CfgCheckBand cfg bands <;> simp

theorem stdFind_iff (l : List Int) (v : Int) : stdFind l v = true ↔ v ∈ l := by
  induction l with
  | nil => simp [stdFind]
  | cons x rest ih =>
    unfold stdFind
    by_cases h : x = v
    · simp [h]
    · have h1 : ¬ v = x := fun e => h e.symm
      simp [h, h1, ih]

theorem CheckBandChannel_scan_iff (l : List Int) (v : Int) :
    CheckBandChannel.scan l v = true ↔ v ∈ l := by
  induction l with
  | nil => simp [CheckBandChannel.scan]
  | cons x rest ih =>
    unfold CheckBandChannel.scan
    by_cases h : x = v
    · simp [h]
    · have h1 : ¬ v = x := fun e => h e.symm
      simp [h, h1, ih]

theorem CfgCheckChannel_success_iff (cfg : HotspotConfig) (tbl : ChannelsTable) :
    (CfgCheckChannel cfg tbl).1 = ErrCode.WIFI_OPT_SUCCESS ↔
      cfg.channel ∈ (ChannelsTable.index tbl cfg.band).1 := by
  unfold CfgCheckChannel
  by_cases h : stdFind (ChannelsTable.index tbl cfg.band).1 cfg.channel = true
  · simp [h, (stdFind_iff _ _).1 h]
  · have h1 : cfg.channel ∉ (ChannelsTable.index tbl cfg.band).1 :=
      fun hm => h ((stdFind_iff _ _).2 hm)
    simp [h, h1]

theorem ErrCode_ne_success_iff (e : ErrCode) :
    e = ErrCode.WIFI_OPT_INVALID_PARAM ↔ ¬ e = ErrCode.WIFI_OPT_SUCCESS := by
  cases e <;> simp

theorem bandAndChannel_success_iff (cfg center : HotspotConfig) (bands : List BandType)
    (tbl : ChannelsTable) :
    (IsValidHotspotConfig.bandAndChannel cfg center bands tbl).1 = ErrCode.WIFI_OPT_SUCCESS ↔
      (cfg.band = center.band ∨ cfg.band ∈ bands) ∧
      (cfg.channel = center.channel ∨
        cfg.channel ∈ (ChannelsTable.index tbl cfg.band).1) := by
  unfold IsValidHotspotConfig.bandAndChannel
  simp only [CfgCheckBand_invalid_iff, ErrCode_ne_success_iff (CfgCheckChannel cfg tbl).1,
    CfgCheckChannel_success_iff]
  split_ifs with h1 h2 h3
  · tauto
  · simp only [true_iff]; tauto
  · tauto
  · simp only [true_iff]; tauto

theorem CfgCheckSsid_invalid_iff (d : WifiDefs) (cfg : HotspotConfig) :
    CfgCheckSsid d cfg = ErrCode.WIFI_OPT_INVALID_PARAM ↔
      ¬ (d.MIN_SSID_LEN ≤ cfg.ssid.length ∧ cfg.ssid.length ≤ d.MAX_SSID_LEN) := by
  unfold CfgCheckSsid
  split_ifs with h
  · simp only [true_iff]; omega
  · simp only [reduceCtorEq, false_iff]; omega

theorem CfgCheckPsk_invalid_iff (d : WifiDefs) (cfg : HotspotConfig) :
    CfgCheckPsk d cfg = ErrCode.WIFI_OPT_INVALID_PARAM ↔
      ¬ (d.MIN_PSK_LEN ≤ cfg.preSharedKey.length ∧
          cfg.preSharedKey.length ≤ d.MAX_PSK_LEN) := by
  unfold CfgCheckPsk
  split_ifs with h
  · simp only [true_iff]; omega
  · simp only [reduceCtorEq, false_iff]; omega

/-- The result code of the validator, split into the three stages of the
source: SSID, key, band and channel. -/
theorem IsValidHotspotConfig_stages (d : WifiDefs) (cfg center : HotspotConfig)
    (bands : List BandType) (tbl : ChannelsTable) :
    (IsValidHotspotConfig d cfg center bands tbl).1 = ErrCode.WIFI_OPT_SUCCESS ↔
      (d.MIN_SSID_LEN ≤ cfg.ssid.length ∧ cfg.ssid.length ≤ d.MAX_SSID_LEN) ∧
      ((cfg.securityType = KeyMgmt.NONE ∧ cfg.preSharedKey = []) ∨
        ((cfg.securityType = KeyMgmt.WPA_PSK ∨ cfg.securityType = KeyMgmt.WPA2_PSK) ∧
          d.MIN_PSK_LEN ≤ cfg.preSharedKey.length ∧
          cfg.preSharedKey.length ≤ d.MAX_PSK_LEN)) ∧
      (IsValidHotspotConfig.bandAndChannel cfg center bands tbl).1 =
        ErrCode.WIFI_OPT_SUCCESS := by
  unfold IsValidHotspotConfig
  simp only [CfgCheckSsid_invalid_iff, CfgCheckPsk_invalid_iff]
  have hlen : cfg.preSharedKey.length > 0 ↔ cfg.preSharedKey ≠ [] := by
    cases cfg.preSharedKey <;> simp
  by_cases hs : d.MIN_SSID_LEN ≤ cfg.ssid.length ∧ cfg.ssid.length ≤ d.MAX_SSID_LEN
  · rw [if_neg (not_not.2 hs)]
    by_cases hn : cfg.securityType = KeyMgmt.NONE
    · have hw : ¬ (cfg.securityType = KeyMgmt.WPA_PSK ∨
          cfg.securityType = KeyMgmt.WPA2_PSK) := by
        rw [hn]; simp
      rw [if_pos hn]
      by_cases hk : cfg.preSharedKey.length > 0
      · rw [if_pos hk]
        have := hlen.1 hk
        simp only [reduceCtorEq, false_iff]
        tauto
      · rw [if_neg hk]
        have h6 : cfg.preSharedKey = [] := by
          by_contra hne
          exact hk (hlen.2 hne)
        tauto
    · rw [if_neg hn]
      by_cases hw : cfg.securityType = KeyMgmt.WPA_PSK ∨ cfg.securityType = KeyMgmt.WPA2_PSK
      · rw [if_pos hw]
        by_cases hp : d.MIN_PSK_LEN ≤ cfg.preSharedKey.length ∧
            cfg.preSharedKey.length ≤ d.MAX_PSK_LEN
        · rw [if_neg (not_not.2 hp)]
          tauto
        · rw [if_pos hp]
          simp only [reduceCtorEq, false_iff]
          tauto
      · rw [if_neg hw]
        simp only [reduceCtorEq, false_iff]
        tauto
  · rw [if_pos hs]
    simp only [reduceCtorEq, false_iff]
    tauto

theorem ChannelsTable_index_fst (tbl : ChannelsTable) (band : BandType) :
    (ChannelsTable.index tbl band).1 = (ChannelsTable.find tbl band).getD [] := by
  unfold ChannelsTable.index
  cases ChannelsTable.find tbl band <;> rfl

/-- The table that `CfgCheckChannel` leaves behind: the one it was given when
the band has an entry, and otherwise that table with an entry for the band
added. -/
theorem CfgCheckChannel_table (cfg : HotspotConfig) (tbl : ChannelsTable) :
    (CfgCheckChannel cfg tbl).2 =
      if (ChannelsTable.find tbl cfg.band).isSome = true then tbl
      else tbl ++ [(cfg.band, [])] := by
  unfold CfgCheckChannel ChannelsTable.index
  cases ChannelsTable.find tbl cfg.band <;> rfl

/-- The validator leaves the table as it was whenever the band of the request
has an entry in it, and whenever the channel is the one of the centre. -/
theorem IsValidHotspotConfig_table_kept (d : WifiDefs) (cfg center : HotspotConfig)
    (bands : List BandType) (tbl : ChannelsTable)
    (h : (ChannelsTable.find tbl cfg.band).isSome = true ∨ cfg.channel = center.channel) :
    (IsValidHotspotConfig d cfg center bands tbl).2 = tbl := by
  have hbc : (IsValidHotspotConfig.bandAndChannel cfg center bands tbl).2 = tbl := by
    unfold IsValidHotspotConfig.bandAndChannel
    split_ifs with h1 h2
    · rfl
    · rcases h with h | h
      · simp only [CfgCheckChannel_table, h, if_true]
        split_ifs <;> rfl
      · exact absurd h h2
    · rfl
  unfold IsValidHotspotConfig
  split_ifs <;> first | rfl | exact hbc

/-! ## The hotspot configuration validator -/

/-- Claim C1: `IsValidHotspotConfig` returns `WIFI_OPT_SUCCESS` exactly when
the SSID length is within its limits, the key fits the security type (open
with an empty key, or WPA-PSK / WPA2-PSK with a key length within its limits),
the band is the centre's or an allowed one, and the channel is the centre's or
occurs in `channelsTable[cfg.band]`; in every other case it returns
`WIFI_OPT_INVALID_PARAM`. -/
theorem IsValidHotspotConfig_success_iff (d : WifiDefs) (cfg center : HotspotConfig)
    (bands : List BandType) (tbl : ChannelsTable) :
    ((IsValidHotspotConfig d cfg center bands tbl).1 = ErrCode.WIFI_OPT_SUCCESS ↔
      (d.MIN_SSID_LEN ≤ cfg.ssid.length ∧ cfg.ssid.length ≤ d.MAX_SSID_LEN) ∧
      ((cfg.securityType = KeyMgmt.NONE ∧ cfg.preSharedKey = []) ∨
        ((cfg.securityType = KeyMgmt.WPA_PSK ∨ cfg.securityType = KeyMgmt.WPA2_PSK) ∧
          d.MIN_PSK_LEN ≤ cfg.preSharedKey.length ∧
          cfg.preSharedKey.length ≤ d.MAX_PSK_LEN)) ∧
      (cfg.band = center.band ∨ cfg.band ∈ bands) ∧
      (cfg.channel = center.channel ∨
        cfg.channel ∈ (ChannelsTable.index tbl cfg.band).1)) ∧
    ((IsValidHotspotConfig d cfg center bands tbl).1 = ErrCode.WIFI_OPT_INVALID_PARAM ↔
      ¬ ((d.MIN_SSID_LEN ≤ cfg.ssid.length ∧ cfg.ssid.length ≤ d.MAX_SSID_LEN) ∧
      ((cfg.securityType = KeyMgmt.NONE ∧ cfg.preSharedKey = []) ∨
        ((cfg.securityType = KeyMgmt.WPA_PSK ∨ cfg.securityType = KeyMgmt.WPA2_PSK) ∧
          d.MIN_PSK_LEN ≤ cfg.preSharedKey.length ∧
          cfg.preSharedKey.length ≤ d.MAX_PSK_LEN)) ∧
      (cfg.band = center.band ∨ cfg.band ∈ bands) ∧
      (cfg.channel = center.channel ∨
        cfg.channel ∈ (ChannelsTable.index tbl cfg.band).1))) := by
  have key := IsValidHotspotConfig_stages d cfg center bands tbl
  rw [bandAndChannel_success_iff] at key
  refine ⟨key, ?_⟩
  rw [ErrCode_ne_success_iff, key]

/-- Claim C2: a configuration whose SSID is shorter than `MIN_SSID_LEN` or
longer than `MAX_SSID_LEN` is rejected with `WIFI_OPT_INVALID_PARAM` whatever
its other fields, the centre configuration, the allowed bands and the table
are, and so is an open configuration with a non-empty key; both rejections
happen before the table is looked at, which is left as it was. -/
theorem IsValidHotspotConfig_rejects_early :
    (∀ (d : WifiDefs) (cfg center : HotspotConfig) (bands : List BandType)
        (tbl : ChannelsTable),
        cfg.ssid.length < d.MIN_SSID_LEN ∨ cfg.ssid.length > d.MAX_SSID_LEN →
        IsValidHotspotConfig d cfg center bands tbl =
          (ErrCode.WIFI_OPT_INVALID_PARAM, tbl)) ∧
    (∀ (d : WifiDefs) (cfg center : HotspotConfig) (bands : List BandType)
        (tbl : ChannelsTable),
        cfg.securityType = KeyMgmt.NONE → cfg.preSharedKey ≠ [] →
        IsValidHotspotConfig d cfg center bands tbl =
          (ErrCode.WIFI_OPT_INVALID_PARAM, tbl)) := by
  constructor
  · intro d cfg center bands tbl h
    have h1 : CfgCheckSsid d cfg = ErrCode.WIFI_OPT_INVALID_PARAM := by
      rw [CfgCheckSsid_invalid_iff]; omega
    unfold IsValidHotspotConfig
    rw [if_pos h1]
  · intro d cfg center bands tbl hn hk
    have hlen : cfg.preSharedKey.length > 0 := by
      cases hp : cfg.preSharedKey with
      | nil => exact absurd hp hk
      | cons c cs => simp
    unfold IsValidHotspotConfig
    by_cases h1 : CfgCheckSsid d cfg = ErrCode.WIFI_OPT_INVALID_PARAM
    · rw [if_pos h1]
    · rw [if_neg h1, if_pos hn, if_pos hlen]

theorem IsValidHotspotConfig_rejects_early_witness :
    (sampleLongSsid.ssid.length = 33 ∧
      IsValidHotspotConfig sampleDefs sampleLongSsid sampleCenter [] sampleTable =
        (ErrCode.WIFI_OPT_INVALID_PARAM, sampleTable)) ∧
    (sampleOpenWithKey.securityType = KeyMgmt.NONE ∧ sampleOpenWithKey.preSharedKey ≠ [] ∧
      IsValidHotspotConfig sampleDefs sampleOpenWithKey sampleCenter [] sampleTable =
        (ErrCode.WIFI_OPT_INVALID_PARAM, sampleTable)) :=
  ⟨⟨by decide, IsValidHotspotConfig_rejects_early.1 sampleDefs sampleLongSsid sampleCenter []
      sampleTable (Or.inr (by decide))⟩,
    ⟨by decide, by decide, IsValidHotspotConfig_rejects_early.2 sampleDefs sampleOpenWithKey
      sampleCenter [] sampleTable (by decide) (by decide)⟩⟩

/-- Claim C3: a configuration accepted by `IsValidHotspotConfig` has a security
type among `NONE`, `WPA_PSK`, `WPA2_PSK`, an empty key when the type is `NONE`
and a key length within `[MIN_PSK_LEN, MAX_PSK_LEN]` otherwise; a
configuration with any other security type is rejected. -/
theorem IsValidHotspotConfig_accepted_invariant (d : WifiDefs) (cfg center : HotspotConfig)
    (bands : List BandType) (tbl : ChannelsTable) :
    ((IsValidHotspotConfig d cfg center bands tbl).1 = ErrCode.WIFI_OPT_SUCCESS →
      (cfg.securityType = KeyMgmt.NONE ∨ cfg.securityType = KeyMgmt.WPA_PSK ∨
        cfg.securityType = KeyMgmt.WPA2_PSK) ∧
      (cfg.securityType = KeyMgmt.NONE → cfg.preSharedKey = []) ∧
      (cfg.securityType ≠ KeyMgmt.NONE →
        d.MIN_PSK_LEN ≤ cfg.preSharedKey.length ∧
        cfg.preSharedKey.length ≤ d.MAX_PSK_LEN)) ∧
    (cfg.securityType ≠ KeyMgmt.NONE → cfg.securityType ≠ KeyMgmt.WPA_PSK →
      cfg.securityType ≠ KeyMgmt.WPA2_PSK →
      (IsValidHotspotConfig d cfg center bands tbl).1 = ErrCode.WIFI_OPT_INVALID_PARAM) := by
  have key := IsValidHotspotConfig_stages d cfg center bands tbl
  constructor
  · intro h
    obtain ⟨_, hk, _⟩ := key.1 h
    rcases hk with ⟨hn, he⟩ | ⟨hw, hl⟩
    · refine ⟨Or.inl hn, fun _ => he, fun hne => absurd hn hne⟩
    · refine ⟨Or.inr hw, ?_, fun _ => hl⟩
      intro hn
      rcases hw with e | e <;> rw [hn] at e <;> cases e
  · intro h1 h2 h3
    rw [ErrCode_ne_success_iff, key]
    tauto

theorem IsValidHotspotConfig_accepted_invariant_witness :
    (IsValidHotspotConfig sampleDefs sampleWpa2 sampleCenter [] sampleTable).1 =
        ErrCode.WIFI_OPT_SUCCESS ∧
    ((sampleWpa2.securityType = KeyMgmt.NONE ∨ sampleWpa2.securityType = KeyMgmt.WPA_PSK ∨
        sampleWpa2.securityType = KeyMgmt.WPA2_PSK) ∧
      (sampleWpa2.securityType = KeyMgmt.NONE → sampleWpa2.preSharedKey = []) ∧
      (sampleWpa2.securityType ≠ KeyMgmt.NONE →
        sampleDefs.MIN_PSK_LEN ≤ sampleWpa2.preSharedKey.length ∧
        sampleWpa2.preSharedKey.length ≤ sampleDefs.MAX_PSK_LEN)) ∧
    (IsValidHotspotConfig sampleDefs { sampleWpa2 with securityType := KeyMgmt.other 0 }
        sampleCenter [] sampleTable).1 = ErrCode.WIFI_OPT_INVALID_PARAM :=
  ⟨by decide,
    (IsValidHotspotConfig_accepted_invariant sampleDefs sampleWpa2 sampleCenter []
      sampleTable).1 (by decide),
    (IsValidHotspotConfig_accepted_invariant sampleDefs
      { sampleWpa2 with securityType := KeyMgmt.other 0 } sampleCenter []
      sampleTable).2 (by decide) (by decide) (by decide)⟩

/-- Claim C4: evaluation of `IsValidHotspotConfig` on a 5 GHz request against
a table without a 5 GHz entry.  The call is rejected, and the table it leaves
behind is not the table it was given: `operator[]` in `CfgCheckChannel` has
inserted an entry for the 5 GHz band with an empty channel list, so `find`
on that band no longer returns `end()`. -/
theorem IsValidHotspotConfig_inserts_missing_band :
    ChannelsTable.find sampleTable BandType.BAND_5GHZ = none ∧
    IsValidHotspotConfig sampleDefs sample5GHz sampleCenter
        [BandType.BAND_2GHZ, BandType.BAND_5GHZ] sampleTable =
      (ErrCode.WIFI_OPT_INVALID_PARAM,
        [(BandType.BAND_2GHZ, [1, 6, 11]), (BandType.BAND_5GHZ, [])]) ∧
    ChannelsTable.find
        (IsValidHotspotConfig sampleDefs sample5GHz sampleCenter
          [BandType.BAND_2GHZ, BandType.BAND_5GHZ] sampleTable).2
        BandType.BAND_5GHZ = some [] ∧
    (IsValidHotspotConfig sampleDefs sample5GHz sampleCenter
        [BandType.BAND_2GHZ, BandType.BAND_5GHZ] sampleTable).2 ≠ sampleTable := by
  decide

/-! ## Band/channel self-correction -/

/-- Claim C5: `CheckBandChannel` always returns a configuration; when the
table has an entry for the band whose channel list contains the channel, the
configuration is left as it is, and otherwise (no entry, empty list, channel
not listed) band and channel are overwritten with `BAND_2GHZ` and
`AP_CHANNEL_DEFAULT`. -/
theorem CheckBandChannel_corrects (d : WifiDefs) (cfg : HotspotConfig) (tbl : ChannelsTable) :
    ((∃ chans, ChannelsTable.find tbl cfg.band = some chans ∧ cfg.channel ∈ chans) →
      CheckBandChannel d cfg tbl = cfg) ∧
    (¬ (∃ chans, ChannelsTable.find tbl cfg.band = some chans ∧ cfg.channel ∈ chans) →
      CheckBandChannel d cfg tbl =
        { cfg with band := BandType.BAND_2GHZ, channel := d.AP_CHANNEL_DEFAULT }) := by
  unfold CheckBandChannel
  cases hf : ChannelsTable.find tbl cfg.band with
  | none => simp
  | some chans =>
    by_cases hm : cfg.channel ∈ chans
    · have hs := (CheckBandChannel_scan_iff chans cfg.channel).2 hm
      have hl : chans.length ≠ 0 := by
        cases chans with
        | nil => simp at hm
        | cons c cs => simp
      simp [hm, hs, hl]
    · have hs : CheckBandChannel.scan chans cfg.channel = false := by
        cases h : CheckBandChannel.scan chans cfg.channel
        · rfl
        · exact absurd ((CheckBandChannel_scan_iff chans cfg.channel).1 h) hm
      simp [hm, hs]

theorem CheckBandChannel_corrects_witness :
    ((∃ chans, ChannelsTable.find sampleTable sampleWpa2.band = some chans ∧
        sampleWpa2.channel ∈ chans) ∧
      CheckBandChannel sampleDefs sampleWpa2 sampleTable = sampleWpa2) ∧
    (¬ (∃ chans, ChannelsTable.find sampleTable sampleBadChannel.band = some chans ∧
        sampleBadChannel.channel ∈ chans) ∧
      CheckBandChannel sampleDefs sampleBadChannel sampleTable =
        { sampleBadChannel with band := BandType.BAND_2GHZ, channel := 6 }) :=
  ⟨⟨⟨[1, 6, 11], by decide⟩,
      (CheckBandChannel_corrects sampleDefs sampleWpa2 sampleTable).1
        ⟨[1, 6, 11], by decide⟩⟩,
    ⟨by simp [sampleTable, sampleBadChannel, ChannelsTable.find],
      (CheckBandChannel_corrects sampleDefs sampleBadChannel sampleTable).2
        (by simp [sampleTable, sampleBadChannel, ChannelsTable.find])⟩⟩

/-! ## Frequency conversion -/

theorem TransformFrequencyIntoChannel_step_eq (acc : List Int) (f : Int) :
    TransformFrequencyIntoChannel.step acc f = acc ++ (specChannel f).toList := by
  unfold TransformFrequencyIntoChannel.step specChannel
  simp only [FREP_2G_MIN, FREP_2G_MAX, FREP_5G_MIN, FREP_5G_MAX, CHANNEL_14_FREP, CHANNEL_14,
    CENTER_FREP_DIFF, CHANNEL_2G_MIN, CHANNEL_5G_MIN, ge_iff_le]
  split_ifs with h1 h2 h3
  · rw [Int.tdiv_eq_ediv (by omega) (by omega)]; rfl
  · rfl
  · rw [Int.tdiv_eq_ediv (by omega) (by omega)]; rfl
  · simp

theorem TransformFrequencyIntoChannel_acc (freqs acc : List Int) :
    TransformFrequencyIntoChannel freqs acc = acc ++ freqs.filterMap specChannel := by
  unfold TransformFrequencyIntoChannel
  induction freqs generalizing acc with
  | nil => simp
  | cons f rest ih =>
    rw [List.foldl_cons, ih, TransformFrequencyIntoChannel_step_eq, List.filterMap_cons]
    cases specChannel f <;> simp

theorem length_filterMap_eq_iff {α β : Type} (g : α → Option β) (l : List α) :
    (l.filterMap g).length = l.length ↔ ∀ x ∈ l, g x ≠ none := by
  induction l with
  | nil => simp
  | cons a rest ih =>
    rw [List.filterMap_cons]
    have hle := List.length_filterMap_le g rest
    cases hg : g a with
    | none =>
      simp only [List.length_cons, List.mem_cons, forall_eq_or_imp, hg]
      constructor
      · intro h; omega
      · intro h; exact absurd rfl h.1
    | some b =>
      simp only [List.length_cons, List.mem_cons, forall_eq_or_imp, hg]
      constructor
      · intro h
        exact ⟨by simp, ih.1 (by omega)⟩
      · intro h
        rw [ih.2 h.2]

/-- Claim C6: on an empty output vector `TransformFrequencyIntoChannel` yields
the input frequencies mapped in order through the channel formula of the
specification, the frequencies outside the three ranges being dropped; the
output is no longer than the input and as long exactly when nothing is
dropped. -/
theorem TransformFrequencyIntoChannel_eq_filterMap (freqs : List Int) :
    TransformFrequencyIntoChannel freqs [] = freqs.filterMap specChannel ∧
    (TransformFrequencyIntoChannel freqs []).length ≤ freqs.length ∧
    ((TransformFrequencyIntoChannel freqs []).length = freqs.length ↔
      ∀ f ∈ freqs, specChannel f ≠ none) := by
  have h := TransformFrequencyIntoChannel_acc freqs []
  rw [List.nil_append] at h
  rw [h]
  exact ⟨rfl, List.length_filterMap_le _ _, length_filterMap_eq_iff _ _⟩

/-- Claim C7: the frequency `2412 + 5k` with `k ≤ 12` alone converts to channel
`k + 1`, the frequency 2484 alone converts to channel 14, and a frequency
strictly between 2472 and 2484 alone converts to nothing. -/
theorem TransformFrequencyIntoChannel_2G_channels :
    (∀ k : Nat, k ≤ 12 →
      TransformFrequencyIntoChannel [2412 + 5 * (k : Int)] [] = [(k : Int) + 1]) ∧
    TransformFrequencyIntoChannel [2484] [] = [14] ∧
    (∀ f : Int, 2472 < f → f < 2484 → TransformFrequencyIntoChannel [f] [] = []) := by
  refine ⟨?_, by decide, ?_⟩
  · intro k hk
    rw [TransformFrequencyIntoChannel_acc]
    have h1 : specChannel (2412 + 5 * (k : Int)) = some ((k : Int) + 1) := by
      unfold specChannel
      rw [if_pos (by omega)]
      congr 1
      omega
    simp [h1]
  · intro f h1 h2
    rw [TransformFrequencyIntoChannel_acc]
    have h3 : specChannel f = none := by
      unfold specChannel
      rw [if_neg (by omega), if_neg (by omega), if_neg (by omega)]
    simp [h3]

theorem TransformFrequencyIntoChannel_2G_channels_witness :
    TransformFrequencyIntoChannel [2412 + 5 * ((3 : Nat) : Int)] [] = [((3 : Nat) : Int) + 1] ∧
    TransformFrequencyIntoChannel [2473] [] = [] :=
  ⟨TransformFrequencyIntoChannel_2G_channels.1 3 (by decide),
    TransformFrequencyIntoChannel_2G_channels.2.2 2473 (by decide) (by decide)⟩

/-- Claim C8: `IsValid24GHz freq` holds exactly for `2400 < freq < 2500` and
`IsValid5GHz freq` exactly for `4900 < freq < 5900`; 2400 and 2500 are not
2.4 GHz frequencies, 2401 and 2499 are, and no frequency is in both bands. -/
theorem IsValid24GHz_IsValid5GHz_open_intervals :
    (∀ freq : Int, (IsValid24GHz freq = true ↔ 2400 < freq ∧ freq < 2500) ∧
      (IsValid5GHz freq = true ↔ 4900 < freq ∧ freq < 5900) ∧
      ¬ (IsValid24GHz freq = true ∧ IsValid5GHz freq = true)) ∧
    IsValid24GHz 2400 = false ∧ IsValid24GHz 2401 = true ∧
    IsValid24GHz 2499 = true ∧ IsValid24GHz 2500 = false := by
  refine ⟨?_, by decide, by decide, by decide, by decide⟩
  intro freq
  unfold IsValid24GHz IsValid5GHz
  refine ⟨?_, ?_, ?_⟩
  · simp only [Bool.and_eq_true, decide_eq_true_eq, gt_iff_lt]
  · simp only [Bool.and_eq_true, decide_eq_true_eq, gt_iff_lt]
  · simp only [Bool.and_eq_true, decide_eq_true_eq, gt_iff_lt]
    omega

/-! ## String splitting -/

theorem isPrefixOf_nil_of_ne (split : List Char) (h : split ≠ []) :
    split.isPrefixOf [] = false := by
  cases split with
  | nil => exact absurd rfl h
  | cons c cs => rfl

/-- The position found by `std::string::find` is the length of the piece in
front of the leftmost occurrence. -/
theorem stdStringFind_go_eq (split s : List Char) (p : Nat) :
    stdStringFind.go split s p =
      (firstOccurrence split s).map (fun r => p + r.1.length) := by
  induction s generalizing p with
  | nil =>
    unfold stdStringFind.go firstOccurrence
    split_ifs <;> simp
  | cons c cs ih =>
    unfold stdStringFind.go firstOccurrence
    split_ifs with h
    · simp
    · rw [ih]
      cases firstOccurrence split cs with
      | none => rfl
      | some r => simp; omega

/-- The leftmost occurrence cuts the text into the piece, the delimiter and
the rest. -/
theorem firstOccurrence_some (split s piece rest : List Char)
    (h : firstOccurrence split s = some (piece, rest)) :
    s = piece ++ (split ++ rest) := by
  induction s generalizing piece with
  | nil =>
    unfold firstOccurrence at h
    split_ifs at h with hp
    cases h
    have := (List.isPrefixOf_iff_prefix.1 hp)
    simpa using this
  | cons c cs ih =>
    unfold firstOccurrence at h
    split_ifs at h with hp
    · cases h
      obtain ⟨t, ht⟩ := List.isPrefixOf_iff_prefix.1 hp
      rw [← ht]
      simp
    · cases hf : firstOccurrence split cs with
      | none => rw [hf] at h; cases h
      | some r =>
        rw [hf] at h
        simp only [Option.map_some', Option.some.injEq, Prod.mk.injEq] at h
        obtain ⟨h1, h2⟩ := h
        subst h1 h2
        rw [List.cons_append, ← ih r.1 hf]

theorem SplitString_loop_eq (str split : List Char) (hsplit : split ≠ []) (n : Nat) :
    ∀ (begPos : Nat) (vec : List (List Char)), begPos ≤ str.length →
      (str.drop begPos).length ≤ n →
      SplitString.loop str split (n + 1) begPos vec =
        some (vec ++ (specPieces split n (str.drop begPos)).filter
          (fun piece => piece ≠ [])) := by
  induction n with
  | zero =>
    intro begPos vec hb hn
    have hnil : str.drop begPos = [] := List.length_eq_zero.1 (Nat.le_zero.1 hn)
    unfold SplitString.loop stdStringFind
    rw [if_neg (by omega), hnil]
    unfold stdStringFind.go specPieces
    simp [isPrefixOf_nil_of_ne split hsplit]
  | succ n ih =>
    intro begPos vec hb hn
    unfold SplitString.loop stdStringFind
    rw [if_neg (by omega), stdStringFind_go_eq]
    unfold specPieces
    cases hf : firstOccurrence split (str.drop begPos) with
    | none =>
      simp only [Option.map_none']
      by_cases he : str.drop begPos = []
      · simp [he]
      · simp [he]
    | some r =>
      obtain ⟨piece, rest⟩ := r
      have hdec := firstOccurrence_some split _ piece rest hf
      have hlen : (str.drop begPos).length =
          piece.length + (split.length + rest.length) := by
        rw [hdec]; simp
      have hsl : 0 < split.length := List.length_pos.2 hsplit
      have hdl : (str.drop begPos).length = str.length - begPos := List.length_drop _ _
      have hrest : str.drop (begPos + piece.length + split.length) = rest := by
        rw [Nat.add_assoc, ← List.drop_drop, hdec, ← List.append_assoc,
          List.drop_left' (by simp)]
      have hpiece : substr str begPos (begPos + piece.length - begPos) = piece := by
        unfold substr
        rw [Nat.add_sub_cancel_left, hdec, List.take_left' rfl]
      simp only [Option.map_some']
      rw [ih _ _ (by omega) (by rw [hrest]; omega), hrest, hpiece]
      by_cases he : piece = []
      · simp [he]
      · have hp : 0 < piece.length := List.length_pos.2 he
        simp [he, hp]

theorem specPieces_succ_some (split : List Char) (n : Nat) (s piece rest : List Char)
    (h : firstOccurrence split s = some (piece, rest)) :
    specPieces split (n + 1) s = piece :: specPieces split n rest := by
  rw [specPieces, h]

theorem specPieces_succ_none (split : List Char) (n : Nat) (s : List Char)
    (h : firstOccurrence split s = none) :
    specPieces split (n + 1) s = [s] := by
  rw [specPieces, h]

theorem specPieces_ne_nil (split : List Char) (n : Nat) (s : List Char) :
    specPieces split n s ≠ [] := by
  cases n with
  | zero => simp [specPieces]
  | succ n =>
    unfold specPieces
    cases firstOccurrence split s with
    | none => simp
    | some r => simp

/-- The pieces, put back together with the delimiter between them, are the
text that was split: the bound on the number of occurrences loses nothing. -/
theorem specPieces_intercalate (split : List Char) (n : Nat) (s : List Char) :
    split.intercalate (specPieces split n s) = s := by
  induction n generalizing s with
  | zero => simp [specPieces, List.intercalate]
  | succ n ih =>
    cases hf : firstOccurrence split s with
    | none => simp [specPieces_succ_none split n s hf, List.intercalate]
    | some r =>
      obtain ⟨piece, rest⟩ := r
      have hdec := firstOccurrence_some split s piece rest hf
      have hne := specPieces_ne_nil split n rest
      have hi := ih rest
      rw [specPieces_succ_some split n s piece rest hf]
      cases hp : specPieces split n rest with
      | nil => exact absurd hp hne
      | cons b ys =>
        rw [hp] at hi
        simp only [List.intercalate, List.intersperse, List.flatten_cons] at hi ⊢
        rw [hi, hdec]

/-- With a bound of at least the length of the text, the last piece holds no
further occurrence of the delimiter. -/
theorem specPieces_last (split : List Char) (hsplit : split ≠ []) (n : Nat) :
    ∀ s : List Char, s.length ≤ n →
      firstOccurrence split ((specPieces split n s).getLast
        (specPieces_ne_nil split n s)) = none := by
  induction n with
  | zero =>
    intro s hs
    have hnil : s = [] := List.length_eq_zero.1 (Nat.le_zero.1 hs)
    subst hnil
    simp [specPieces, firstOccurrence, isPrefixOf_nil_of_ne split hsplit]
  | succ n ih =>
    intro s hs
    have hsl : 0 < split.length := List.length_pos.2 hsplit
    cases hf : firstOccurrence split s with
    | none =>
      have := specPieces_succ_none split n s hf
      simp only [this, List.getLast_singleton]
      exact hf
    | some r =>
      obtain ⟨piece, rest⟩ := r
      have hdec := firstOccurrence_some split s piece rest hf
      have hlen : s.length = piece.length + (split.length + rest.length) := by
        rw [hdec]; simp
      have := specPieces_succ_some split n s piece rest hf
      simp only [this, List.getLast_cons (specPieces_ne_nil split n rest)]
      exact ih rest (by omega)

/-- The fuel given by `SplitString` is always enough: the function returns a
vector for every input. -/
theorem SplitString_returns (str split : List Char) (vec : List (List Char)) :
    ∃ out, SplitString str split vec = some out := by
  unfold SplitString
  by_cases h : split = []
  · simp [h]
  · have hne : split.isEmpty = false := by
      cases split with
      | nil => exact absurd rfl h
      | cons c cs => rfl
    simp only [hne]
    exact ⟨_, SplitString_loop_eq str split h str.length 0 vec (Nat.zero_le _) (by simp)⟩

/-- Claim C9: for a non-empty delimiter `SplitString`, started on an empty
vector, returns in order the non-empty pieces of the input between
successive occurrences of the delimiter (found left to right, each search
resuming right after the previous occurrence), the last piece being the
remainder after the last occurrence. -/
theorem SplitString_eq_specSplit (str split : List Char) (hsplit : split ≠ []) :
    SplitString str split [] = some (specSplit str split) := by
  have hne : split.isEmpty = false := by
    cases split with
    | nil => exact absurd rfl hsplit
    | cons c cs => rfl
  unfold SplitString specSplit
  simp only [hne]
  have := SplitString_loop_eq str split hsplit str.length 0 [] (Nat.zero_le _) (by simp)
  simpa using this

theorem SplitString_eq_specSplit_witness :
    [','] ≠ [] ∧
    SplitString ['a', ',', ',', 'b', ','] [','] [] =
      some (specSplit ['a', ',', ',', 'b', ','] [',']) ∧
    specSplit ['a', ',', ',', 'b', ','] [','] = [['a'], ['b']] :=
  ⟨by decide, SplitString_eq_specSplit ['a', ',', ',', 'b', ','] [','] (by decide), by decide⟩

/-- Claim C10: with an empty delimiter `SplitString`, started on an empty
vector, returns the one-element vector holding the whole input, also for the
empty input. -/
theorem SplitString_empty_delimiter (str : List Char) :
    SplitString str [] [] = some [str] ∧ SplitString [] [] [] = some [[]] := by
  constructor <;> rfl

/-! ## MAC address syntax -/

theorem forall_lt_succ_left (n : Nat) (P : Nat → Prop) :
    (∀ k < n + 1, P k) ↔ P 0 ∧ ∀ k < n, P (k + 1) := by
  constructor
  · intro h
    exact ⟨h 0 (by omega), fun k hk => h (k + 1) (by omega)⟩
  · rintro ⟨h0, hs⟩ k hk
    cases k with
    | zero => exact h0
    | succ k => exact hs k (by omega)

theorem Char_le_iff_toNat (a b : Char) : a ≤ b ↔ a.toNat ≤ b.toNat := by
  rw [Char.le_def]
  rfl

theorem IsValidHexCharAndConvert_neg_iff (c : Char) :
    IsValidHexCharAndConvert c < 0 ↔ isHexDigit c = false := by
  unfold IsValidHexCharAndConvert isHexDigit
  simp only [ge_iff_le, Char_le_iff_toNat]
  have e0 : '0'.toNat = 48 := rfl
  have e9 : '9'.toNat = 57 := rfl
  have ea : 'a'.toNat = 97 := rfl
  have ef : 'f'.toNat = 102 := rfl
  have eA : 'A'.toNat = 65 := rfl
  have eF : 'F'.toNat = 70 := rfl
  simp only [e0, e9, ea, ef, eA, eF]
  split_ifs with h1 h2 h3
  · simp only [Bool.or_eq_false_iff, Bool.and_eq_false_iff, decide_eq_false_iff_not]
    constructor
    · intro h; omega
    · intro h; omega
  · simp only [Bool.or_eq_false_iff, Bool.and_eq_false_iff, decide_eq_false_iff_not]
    constructor
    · intro h; omega
    · intro h; omega
  · simp only [Bool.or_eq_false_iff, Bool.and_eq_false_iff, decide_eq_false_iff_not]
    constructor
    · intro h; omega
    · intro h; omega
  · simp only [Bool.or_eq_false_iff, Bool.and_eq_false_iff, decide_eq_false_iff_not]
    constructor
    · intro _; omega
    · intro _; omega

theorem macCharOk_congr (macStr : List Char) (idx m n : Nat) (h : m % 3 = n % 3) :
    macCharOk macStr idx m ↔ macCharOk macStr idx n := by
  unfold macCharOk
  rw [h]

/-- The loop accepts exactly when every position it visits holds what the
counter `j` asks for: a colon when `j` is 2, a hexadecimal digit otherwise. -/
theorem CheckMacIsValid_loop_iff (macStr : List Char) (rounds : Nat) :
    ∀ i j : Nat, j ≤ 2 →
      (CheckMacIsValid.loop macStr rounds i j = 0 ↔
        ∀ k < rounds, macCharOk macStr (i + k) (j + k)) ∧
      (CheckMacIsValid.loop macStr rounds i j = 0 ∨
        CheckMacIsValid.loop macStr rounds i j = -1) := by
  induction rounds with
  | zero =>
    intro i j _
    refine ⟨⟨fun _ k hk => absurd hk (Nat.not_lt_zero k), fun _ => ?_⟩, Or.inl ?_⟩ <;>
      rw [CheckMacIsValid.loop]
  | succ r ih =>
    intro i j hj
    rw [forall_lt_succ_left]
    have hhex := IsValidHexCharAndConvert_neg_iff (macStr.getD i (Char.ofNat 0))
    by_cases h01 : j = 0 ∨ j = 1
    · have hm : ¬ j % 3 = 2 := by omega
      have hp0 : macCharOk macStr (i + 0) (j + 0) ↔
          isHexDigit (macStr.getD i (Char.ofNat 0)) = true := by
        unfold macCharOk
        rw [Nat.add_zero, Nat.add_zero, if_neg hm]
      have ihn := ih (i + 1) (j + 1) (by omega)
      have hq : (∀ k < r, macCharOk macStr (i + (k + 1)) (j + (k + 1))) ↔
          (∀ k < r, macCharOk macStr (i + 1 + k) (j + 1 + k)) := by
        constructor
        · intro h k hk
          have := h k hk
          rwa [show j + (k + 1) = j + 1 + k by omega,
            show i + (k + 1) = i + 1 + k by omega] at this
        · intro h k hk
          have := h k hk
          rwa [show j + 1 + k = j + (k + 1) by omega,
            show i + 1 + k = i + (k + 1) by omega] at this
      rw [CheckMacIsValid.loop, if_pos h01]
      by_cases hv : IsValidHexCharAndConvert (macStr.getD i (Char.ofNat 0)) < 0
      · have hf := hhex.1 hv
        rw [if_pos hv]
        refine ⟨⟨fun h => absurd h (by decide), fun h => ?_⟩, Or.inr rfl⟩
        have ht := hp0.1 h.1
        rw [hf] at ht
        cases ht
      · have hd : isHexDigit (macStr.getD i (Char.ofNat 0)) = true := by
          cases hx : isHexDigit (macStr.getD i (Char.ofNat 0))
          · exact absurd (hhex.2 hx) hv
          · rfl
        rw [if_neg hv]
        exact ⟨⟨fun h => ⟨hp0.2 hd, hq.2 (ihn.1.1 h)⟩, fun h => ihn.1.2 (hq.1 h.2)⟩, ihn.2⟩
    · have hj2 : j = 2 := by omega
      subst hj2
      have hp0 : macCharOk macStr (i + 0) (2 + 0) ↔
          macStr.getD i (Char.ofNat 0) = ':' := by
        unfold macCharOk
        rw [Nat.add_zero, Nat.add_zero, if_pos (by decide)]
      have ihn := ih (i + 1) 0 (by omega)
      have hq : (∀ k < r, macCharOk macStr (i + (k + 1)) (2 + (k + 1))) ↔
          (∀ k < r, macCharOk macStr (i + 1 + k) (0 + k)) := by
        constructor
        · intro h k hk
          have := h k hk
          rw [show i + (k + 1) = i + 1 + k by omega] at this
          exact (macCharOk_congr macStr _ _ _ (by omega)).1 this
        · intro h k hk
          have := h k hk
          rw [show i + (k + 1) = i + 1 + k by omega]
          exact (macCharOk_congr macStr _ _ _ (by omega)).1 this
      rw [CheckMacIsValid.loop, if_neg h01]
      by_cases hc : macStr.getD i (Char.ofNat 0) = ':'
      · rw [if_neg (not_not.2 hc)]
        exact ⟨⟨fun h => ⟨hp0.2 hc, hq.2 (ihn.1.1 h)⟩, fun h => ihn.1.2 (hq.1 h.2)⟩, ihn.2⟩
      · rw [if_pos hc]
        exact ⟨⟨fun h => absurd h (by decide), fun h => absurd (hp0.1 h.1) hc⟩, Or.inr rfl⟩

/-- The seventeen positions, sorted into the five colons and the twelve
hexadecimal digits. -/
theorem macCharOk_positions (s : List Char) :
    (∀ k < 17, macCharOk s (0 + k) (0 + k)) ↔
      (∀ i ∈ [2, 5, 8, 11, 14], s.getD i (Char.ofNat 0) = ':') ∧
      (∀ i ∈ [0, 1, 3, 4, 6, 7, 9, 10, 12, 13, 15, 16],
        isHexDigit (s.getD i (Char.ofNat 0)) = true) := by
  constructor
  · intro h
    constructor
    · intro i hi
      have hk : i < 17 := by
        simp only [List.mem_cons, List.mem_singleton, List.not_mem_nil, or_false] at hi
        omega
      have hmod : i % 3 = 2 := by
        simp only [List.mem_cons, List.mem_singleton, List.not_mem_nil, or_false] at hi
        omega
      have := h i hk
      unfold macCharOk at this
      rwa [Nat.zero_add, if_pos hmod] at this
    · intro i hi
      have hk : i < 17 := by
        simp only [List.mem_cons, List.mem_singleton, List.not_mem_nil, or_false] at hi
        omega
      have hmod : ¬ i % 3 = 2 := by
        simp only [List.mem_cons, List.mem_singleton, List.not_mem_nil, or_false] at hi
        omega
      have := h i hk
      unfold macCharOk at this
      rwa [Nat.zero_add, if_neg hmod] at this
  · rintro ⟨hc, hx⟩ k hk
    unfold macCharOk
    rw [Nat.zero_add]
    by_cases hmod : k % 3 = 2
    · rw [if_pos hmod]
      apply hc
      simp only [List.mem_cons, List.mem_singleton, List.not_mem_nil, or_false]
      omega
    · rw [if_neg hmod]
      apply hx
      simp only [List.mem_cons, List.mem_singleton, List.not_mem_nil, or_false]
      omega

/-- Claim C11: `CheckMacIsValid` returns 0 exactly for the strings of 17
characters whose positions 2, 5, 8, 11 and 14 hold `:` and whose other twelve
positions hold hexadecimal digits (`0-9`, `a-f`, `A-F`), and -1 for every
other string; `AA:BB:CC:DD:EE:FF` is valid and `AA:BB:CC:DD:EE:FG` is not. -/
theorem CheckMacIsValid_iff :
    (∀ s : List Char,
      (CheckMacIsValid s = 0 ↔
        s.length = 17 ∧
        (∀ i ∈ [2, 5, 8, 11, 14], s.getD i (Char.ofNat 0) = ':') ∧
        (∀ i ∈ [0, 1, 3, 4, 6, 7, 9, 10, 12, 13, 15, 16],
          isHexDigit (s.getD i (Char.ofNat 0)) = true)) ∧
      (CheckMacIsValid s = 0 ∨ CheckMacIsValid s = -1)) ∧
    CheckMacIsValid
      ['A', 'A', ':', 'B', 'B', ':', 'C', 'C', ':', 'D', 'D', ':', 'E', 'E', ':', 'F', 'F'] = 0 ∧
    CheckMacIsValid
      ['A', 'A', ':', 'B', 'B', ':', 'C', 'C', ':', 'D', 'D', ':', 'E', 'E', ':', 'F', 'G'] =
        -1 := by
  refine ⟨?_, by decide, by decide⟩
  intro s
  unfold CheckMacIsValid
  by_cases hl : s.length = 17
  · have hlen : ¬ s.length ≠ MAC_STRING_SIZE := not_not.2 hl
    rw [if_neg hlen]
    have key := CheckMacIsValid_loop_iff s 17 0 0 (by decide)
    rw [macCharOk_positions] at key
    exact ⟨⟨fun h => ⟨hl, key.1.1 h⟩, fun h => key.1.2 h.2⟩, key.2⟩
  · have hlen : s.length ≠ MAC_STRING_SIZE := hl
    rw [if_pos hlen]
    exact ⟨⟨fun h => absurd h (by decide), fun h => absurd h.1 hl⟩, Or.inr rfl⟩

/-! ## Scan policy -/

theorem IsAllowScanAnyTime_rules_iff (rules : List ScanForbidMode) :
    IsAllowScanAnyTime.rules rules = true ↔
      ∃ rule ∈ rules, rule.scanMode = ScanMode.ANYTIME_SCAN := by
  induction rules with
  | nil => simp [IsAllowScanAnyTime.rules]
  | cons rule rest ih =>
    unfold IsAllowScanAnyTime.rules
    by_cases h : rule.scanMode = ScanMode.ANYTIME_SCAN
    · simp [h]
    · simp [h, ih]

/-- What the code computes: the answer is `false` exactly when an anytime-scan
rule is stored in the entry of the wildcard key or in any entry that follows
it in the map. -/
theorem IsAllowScanAnyTime_false_iff (SCAN_SCENE_ALL : Int) (info : ScanControlInfo) :
    IsAllowScanAnyTime SCAN_SCENE_ALL info = false ↔
      ∃ entry ∈ scanForbidMapFind info.scanForbidMap SCAN_SCENE_ALL,
        ∃ rule ∈ entry.2, rule.scanMode = ScanMode.ANYTIME_SCAN := by
  unfold IsAllowScanAnyTime
  generalize scanForbidMapFind info.scanForbidMap SCAN_SCENE_ALL = entries
  induction entries with
  | nil => simp [IsAllowScanAnyTime.entries]
  | cons entry rest ih =>
    unfold IsAllowScanAnyTime.entries
    by_cases h : IsAllowScanAnyTime.rules entry.2 = true
    · have := (IsAllowScanAnyTime_rules_iff entry.2).1 h
      simp only [h, if_true, true_iff]
      exact ⟨entry, List.mem_cons_self _ _, this⟩
    · have hn : ¬ ∃ rule ∈ entry.2, rule.scanMode = ScanMode.ANYTIME_SCAN :=
        fun hx => h ((IsAllowScanAnyTime_rules_iff entry.2).2 hx)
      simp only [h, if_false, ih, List.mem_cons, Bool.false_eq_true]
      constructor
      · rintro ⟨e, he, hr⟩
        exact ⟨e, Or.inr he, hr⟩
      · rintro ⟨e, he | he, hr⟩
        · subst he; exact absurd hr hn
        · exact ⟨e, he, hr⟩

/-- Claim C12: evaluation of `IsAllowScanAnyTime` on a snapshot whose wildcard
scene (key 0) holds no rule and whose scene 1 holds an anytime-scan rule.  No
rule stored under the wildcard key has mode `ANYTIME_SCAN`, yet the answer is
`false`; without the entry of scene 1 the answer is `true`, so a rule stored
under another scene key has changed the result.  The same happens for every
value `all` of the wildcard key, with the rule stored under `all + 1`. -/
theorem IsAllowScanAnyTime_reads_later_scenes :
    (∀ entry ∈ sampleScanControl.scanForbidMap, entry.1 = 0 →
      ∀ rule ∈ entry.2, rule.scanMode ≠ ScanMode.ANYTIME_SCAN) ∧
    IsAllowScanAnyTime 0 sampleScanControl = false ∧
    IsAllowScanAnyTime 0 { scanForbidMap := [(0, [])] } = true ∧
    (∀ all : Int,
      IsAllowScanAnyTime all
        { scanForbidMap := [(all, []), (all + 1, [{ scanMode := ScanMode.ANYTIME_SCAN }])] } =
        false) := by
  refine ⟨by decide, by decide, by decide, ?_⟩
  intro all
  simp [IsAllowScanAnyTime, scanForbidMapFind, IsAllowScanAnyTime.entries,
    IsAllowScanAnyTime.rules]

/-! ## Connection state mapping -/

/-- Claim C13: `ConvertConnStateInternal` returns for each of the fourteen
internal states the public state of the same name, two of the fourteen never
share a result, and every other input gives `UNKNOWN`. -/
theorem ConvertConnStateInternal_total :
    (ConvertConnStateInternal OperateResState.CONNECT_CONNECTING =
        ConnectionState.CONNECT_CONNECTING ∧
      ConvertConnStateInternal OperateResState.CONNECT_AP_CONNECTED =
        ConnectionState.CONNECT_AP_CONNECTED ∧
      ConvertConnStateInternal OperateResState.CONNECT_CHECK_PORTAL =
        ConnectionState.CONNECT_CHECK_PORTAL ∧
      ConvertConnStateInternal OperateResState.CONNECT_NETWORK_ENABLED =
        ConnectionState.CONNECT_NETWORK_ENABLED ∧
      ConvertConnStateInternal OperateResState.CONNECT_NETWORK_DISABLED =
        ConnectionState.CONNECT_NETWORK_DISABLED ∧
      ConvertConnStateInternal OperateResState.DISCONNECT_DISCONNECTING =
        ConnectionState.DISCONNECT_DISCONNECTING ∧
      ConvertConnStateInternal OperateResState.DISCONNECT_DISCONNECT_FAILED =
        ConnectionState.DISCONNECT_DISCONNECT_FAILED ∧
      ConvertConnStateInternal OperateResState.DISCONNECT_DISCONNECTED =
        ConnectionState.DISCONNECT_DISCONNECTED ∧
      ConvertConnStateInternal OperateResState.CONNECT_PASSWORD_WRONG =
        ConnectionState.CONNECT_PASSWORD_WRONG ∧
      ConvertConnStateInternal OperateResState.CONNECT_CONNECTING_TIMEOUT =
        ConnectionState.CONNECT_CONNECTING_TIMEOUT ∧
      ConvertConnStateInternal OperateResState.CONNECT_OBTAINING_IP =
        ConnectionState.CONNECT_OBTAINING_IP ∧
      ConvertConnStateInternal OperateResState.CONNECT_OBTAINING_IP_FAILED =
        ConnectionState.CONNECT_OBTAINING_IP_FAILED ∧
      ConvertConnStateInternal OperateResState.CONNECT_ASSOCIATING =
        ConnectionState.CONNECT_ASSOCIATING ∧
      ConvertConnStateInternal OperateResState.CONNECT_ASSOCIATED =
        ConnectionState.CONNECT_ASSOCIATED) ∧
    (∀ a b : OperateResState, (∀ n, a ≠ OperateResState.other n) →
      (∀ n, b ≠ OperateResState.other n) →
      ConvertConnStateInternal a = ConvertConnStateInternal b → a = b) ∧
    (∀ n : Nat, ConvertConnStateInternal (OperateResState.other n) =
      ConnectionState.UNKNOWN) := by
  refine ⟨by decide, ?_, fun n => rfl⟩
  intro a b ha hb h
  cases a <;> cases b <;>
    first
    | rfl
    | exact absurd rfl (ha _)
    | exact absurd rfl (hb _)
    | exact absurd h (by simp [ConvertConnStateInternal])

theorem ConvertConnStateInternal_total_witness :
    OperateResState.CONNECT_ASSOCIATED = OperateResState.CONNECT_ASSOCIATED ∧
    ConvertConnStateInternal (OperateResState.other 3) = ConnectionState.UNKNOWN :=
  ⟨ConvertConnStateInternal_total.2.1 OperateResState.CONNECT_ASSOCIATED
      OperateResState.CONNECT_ASSOCIATED (fun n => by simp) (fun n => by simp) rfl,
    ConvertConnStateInternal_total.2.2 3⟩

/-! ## Random strings -/

theorem tmod_gt_neg (a b : Int) (hb : 0 < b) : -b < Int.tmod a b := by
  obtain ⟨k, rfl⟩ := Int.eq_ofNat_of_zero_le (Int.le_of_lt hb)
  cases a with
  | ofNat n =>
    have : 0 ≤ (Int.ofNat n).tmod (k : Int) := Int.tmod_nonneg (k : Int) (Int.ofNat_nonneg n)
    omega
  | negSucc n =>
    have hk : 0 < k := by omega
    have hlt := Nat.mod_lt (n + 1) hk
    show -(k : Int) < -(((n + 1) % k : Nat) : Int)
    omega

/-- Every character code the `switch` stores lies strictly between 0 and
128: it is never the terminating zero byte and fits a `char`. -/
theorem GetRandomStr_pick_bounds (x : Int) :
    0 < GetRandomStr.pick x ∧ GetRandomStr.pick x < 128 := by
  have hz : ('z'.toNat : Int) - ('a'.toNat : Int) + 1 = 26 := by decide
  have hZ : ('Z'.toNat : Int) - ('A'.toNat : Int) + 1 = 26 := by decide
  have h9 : ('9'.toNat : Int) - ('0'.toNat : Int) + 1 = 10 := by decide
  have ha : ('a'.toNat : Int) = 97 := by decide
  have hA : ('A'.toNat : Int) = 65 := by decide
  have h0 : ('0'.toNat : Int) = 48 := by decide
  have l26 := tmod_gt_neg x 26 (by decide)
  have u26 := Int.tmod_lt_of_pos x (show (0 : Int) < 26 by decide)
  have l10 := tmod_gt_neg x 10 (by decide)
  have u10 := Int.tmod_lt_of_pos x (show (0 : Int) < 10 by decide)
  unfold GetRandomStr.pick
  rw [hz, hZ, h9, ha, hA, h0]
  split_ifs <;> omega

/-- For a non-negative number the stored code is a lowercase letter when the
remainder modulo 3 is 0, an uppercase letter when it is 1 and a digit
otherwise. -/
theorem GetRandomStr_pick_of_nonneg (x : Int) (hx : 0 ≤ x) :
    (x % 3 = 0 → 97 ≤ GetRandomStr.pick x ∧ GetRandomStr.pick x ≤ 122) ∧
    (x % 3 = 1 → 65 ≤ GetRandomStr.pick x ∧ GetRandomStr.pick x ≤ 90) ∧
    (x % 3 = 2 → 48 ≤ GetRandomStr.pick x ∧ GetRandomStr.pick x ≤ 57) ∧
    isAlnumCode (GetRandomStr.pick x) = true := by
  have hz : ('z'.toNat : Int) - ('a'.toNat : Int) + 1 = 26 := by decide
  have hZ : ('Z'.toNat : Int) - ('A'.toNat : Int) + 1 = 26 := by decide
  have h9 : ('9'.toNat : Int) - ('0'.toNat : Int) + 1 = 10 := by decide
  have ha : ('a'.toNat : Int) = 97 := by decide
  have hA : ('A'.toNat : Int) = 65 := by decide
  have h0 : ('0'.toNat : Int) = 48 := by decide
  unfold GetRandomStr.pick isAlnumCode HEX_TYPE_LEN
  rw [hz, hZ, h9, ha, hA, h0, Int.tmod_eq_emod hx (by decide),
    Int.tmod_eq_emod hx (by decide), Int.tmod_eq_emod hx (by decide)]
  simp only [Bool.or_eq_true, Bool.and_eq_true, decide_eq_true_eq]
  split_ifs <;> omega

/-- The number handed to the `switch` is non-negative unless the draw is
`0x80000000`, whose absolute value does not exist in 32 bits. -/
theorem stdAbs_castToInt (v : Nat) :
    (0 ≤ stdAbs (castToInt v) ∧ stdAbs (castToInt v) < 2 ^ 31) ∨
    (v % 2 ^ 32 = 2 ^ 31 ∧ stdAbs (castToInt v) = -2 ^ 31) := by
  unfold stdAbs castToInt
  have hlt : v % 2 ^ 32 < 2 ^ 32 := Nat.mod_lt _ (by decide)
  generalize v % 2 ^ 32 = w at hlt ⊢
  norm_num at hlt ⊢
  split_ifs <;> omega

theorem GetRandomStr_fill_eq (rd : Nat → Nat) (count m : Nat) :
    ∀ xs : List Int,
      GetRandomStr.fill rd (xs ++ List.replicate (count + m) 0) xs.length count =
        xs ++ (List.range count).map
          (fun i => GetRandomStr.pick (stdAbs (castToInt (rd (xs.length + i))))) ++
          List.replicate m 0 := by
  induction count with
  | zero =>
    intro xs
    simp [GetRandomStr.fill]
  | succ c ih =>
    intro xs
    have hset : (xs ++ List.replicate (c + 1 + m) 0).set xs.length
        (GetRandomStr.pick (stdAbs (castToInt (rd xs.length)))) =
        (xs ++ [GetRandomStr.pick (stdAbs (castToInt (rd xs.length)))]) ++
          List.replicate (c + m) 0 := by
      rw [show c + 1 + m = (c + m) + 1 by omega, List.replicate_succ, List.set_append]
      simp
    have hlen : (xs ++ [GetRandomStr.pick (stdAbs (castToInt (rd xs.length)))]).length =
        xs.length + 1 := by simp
    rw [GetRandomStr.fill, hset, ← hlen, ih, hlen, List.range_succ_eq_map]
    simp only [List.map_cons, List.map_map, List.append_assoc, List.singleton_append,
      Nat.add_zero]
    congr 3
    apply List.map_congr_left
    intro i _
    simp only [Function.comp]
    rw [show xs.length + 1 + i = xs.length + (i + 1) by omega]

/-- The string returned by `GetRandomStr`: one character for each of the
first `min len MAX_PSK_LEN` draws. -/
theorem GetRandomStr_eq_map (d : WifiDefs) (rd : Nat → Nat) (len : Int) :
    GetRandomStr d rd len =
      (List.range (min len.toNat d.MAX_PSK_LEN)).map
        (fun i => Char.ofNat (GetRandomStr.pick (stdAbs (castToInt (rd i)))).toNat) := by
  unfold GetRandomStr
  have hc : (if len > (d.MAX_PSK_LEN : Int) then (d.MAX_PSK_LEN : Int) else len).toNat =
      min len.toNat d.MAX_PSK_LEN := by
    split_ifs with h
    · rw [Int.toNat_ofNat]; omega
    · omega
  simp only [hc]
  generalize hcv : min len.toNat d.MAX_PSK_LEN = c
  have hle : c ≤ d.MAX_PSK_LEN := by omega
  have hfill := GetRandomStr_fill_eq rd c (d.MAX_PSK_LEN + 1 - c) []
  rw [List.nil_append, List.length_nil, show c + (d.MAX_PSK_LEN + 1 - c) =
    d.MAX_PSK_LEN + 1 by omega] at hfill
  rw [hfill, show d.MAX_PSK_LEN + 1 - c = (d.MAX_PSK_LEN - c) + 1 by omega,
    List.replicate_succ, List.nil_append, List.takeWhile_append]
  have hall : List.takeWhile (fun code => decide (code ≠ 0))
      ((List.range c).map (fun i => GetRandomStr.pick (stdAbs (castToInt (rd (0 + i)))))) =
      (List.range c).map (fun i => GetRandomStr.pick (stdAbs (castToInt (rd (0 + i))))) := by
    rw [List.takeWhile_eq_self_iff]
    intro code hmem
    obtain ⟨i, _, rfl⟩ := List.mem_map.1 hmem
    have := (GetRandomStr_pick_bounds (stdAbs (castToInt (rd (0 + i))))).1
    simp only [decide_eq_true_eq]
    omega
  rw [hall, if_pos rfl]
  simp [List.takeWhile]

/-- Claim C14: for a requested length `len ≥ 0` and any values returned by
the random source, `GetRandomStr` returns a string of exactly
`min len MAX_PSK_LEN` characters. -/
theorem GetRandomStr_length (d : WifiDefs) (rd : Nat → Nat) (len : Int) (hlen : 0 ≤ len) :
    ((GetRandomStr d rd len).length : Int) = min len (d.MAX_PSK_LEN : Int) := by
  rw [GetRandomStr_eq_map, List.length_map, List.length_range]
  omega

theorem GetRandomStr_length_witness :
    ((GetRandomStr sampleDefs sampleDrawMin 100).length : Int) =
        min 100 (sampleDefs.MAX_PSK_LEN : Int) ∧
    ((GetRandomStr sampleDefs (fun n => 7919 * n + 5) 12).length : Int) =
        min 12 (sampleDefs.MAX_PSK_LEN : Int) :=
  ⟨GetRandomStr_length sampleDefs sampleDrawMin 100 (by decide),
    GetRandomStr_length sampleDefs (fun n => 7919 * n + 5) 12 (by decide)⟩

/-- Claim C15: evaluation of `GetRandomStr` for length 1 when the random
source returns `0x80000000`.  The cast gives `-2^31`, `std::abs` leaves it
negative, the remainder modulo 3 is `-2`, so the digit branch stores
`-8 + '0'`, the code 40 of `(`: the string returned is `(`, which is neither
a letter nor a digit. -/
theorem GetRandomStr_int_min_draw :
    castToInt (sampleDrawMin 0) = -2147483648 ∧
    stdAbs (castToInt (sampleDrawMin 0)) = -2147483648 ∧
    Int.tmod (-2147483648) HEX_TYPE_LEN = -2 ∧
    GetRandomStr.pick (-2147483648) = 40 ∧
    isAlnumCode 40 = false ∧
    GetRandomStr sampleDefs sampleDrawMin 1 = ['('] := by
  refine ⟨by decide, by decide, by decide, by decide, by decide, ?_⟩
  rw [GetRandomStr_eq_map]
  decide

/-! ## Event listener registry -/

theorem occupied_map_some_append (xs : List WifiEvent) (m : Nat) :
    EventListenerSet.occupied (xs.map some ++ List.replicate m none) = xs.length := by
  unfold EventListenerSet.occupied
  induction xs with
  | nil =>
    induction m with
    | zero => rfl
    | succ m ih =>
      rw [List.replicate_succ]
      exact ih
  | cons x rest ih =>
    rw [List.map_cons, List.cons_append, List.filter_cons]
    simp only [Option.isSome_some, if_true, List.length_cons]
    rw [ih]

theorem occupied_with_gap (l1 l2 : List WifiEvent) :
    EventListenerSet.occupied (l1.map some ++ none :: l2.map some) =
      l1.length + l2.length := by
  unfold EventListenerSet.occupied
  induction l1 with
  | nil =>
    have := occupied_map_some_append l2 0
    unfold EventListenerSet.occupied at this
    simpa using this
  | cons x rest ih =>
    simp only [List.map_cons, List.cons_append, List.filter_cons, Option.isSome_some, if_true,
      List.length_cons, ih]
    omega

theorem fillFirstEmpty_first_gap (l1 : List WifiEvent) (rest : EventListenerSet)
    (event : WifiEvent) :
    EventListenerSet.fillFirstEmpty (l1.map some ++ none :: rest) event =
      l1.map some ++ some event :: rest := by
  induction l1 with
  | nil => rfl
  | cons x xs ih =>
    rw [List.map_cons, List.cons_append, EventListenerSet.fillFirstEmpty, ih]
    rfl

/-- Registrations into a registry whose occupied slots come first fill the
empty slots in order. -/
theorem registerAll_fill (bundles : List WifiEvent) :
    ∀ (xs : List WifiEvent) (m : Nat), xs.length + bundles.length + m = WIFI_MAX_EVENT_SIZE →
      registerAll (xs.map some ++ List.replicate (bundles.length + m) none) bundles =
        some ((xs ++ bundles).map some ++ List.replicate m none) := by
  induction bundles with
  | nil =>
    intro xs m _
    simp [registerAll]
  | cons b rest ih =>
    intro xs m hsz
    have hocc := occupied_map_some_append xs ((b :: rest).length + m)
    have hlt : ¬ xs.length ≥ WIFI_MAX_EVENT_SIZE := by
      simp only [List.length_cons] at hsz
      omega
    have hreg : RegisterWifiEvent (xs.map some ++ List.replicate ((b :: rest).length + m) none)
        b = (WifiErrorCode.WIFI_SUCCESS,
          (xs ++ [b]).map some ++ List.replicate (rest.length + m) none) := by
      unfold RegisterWifiEvent
      rw [hocc, if_neg hlt]
      rw [show (b :: rest).length + m = (rest.length + m) + 1 by simp; omega,
        List.replicate_succ, fillFirstEmpty_first_gap]
      simp
    rw [registerAll, hreg]
    simp only [if_true]
    rw [ih (xs ++ [b]) m (by simp only [List.length_append, List.length_cons,
      List.length_nil] at hsz ⊢; omega)]
    simp

theorem RegisterWifiEvent_full (xs : List WifiEvent) (h : xs.length = WIFI_MAX_EVENT_SIZE)
    (event : WifiEvent) :
    RegisterWifiEvent (xs.map some) event =
      (WifiErrorCode.ListenerTableFull, xs.map some) := by
  have hocc := occupied_map_some_append xs 0
  simp only [List.replicate_zero, List.append_nil] at hocc
  unfold RegisterWifiEvent
  rw [hocc, if_pos (by omega)]

theorem removeFirst_map_some (xs : List WifiEvent) (event : WifiEvent) (h : event ∈ xs) :
    ∃ l1 l2, xs = l1 ++ event :: l2 ∧
      EventListenerSet.removeFirst (xs.map some) event =
        some (l1.map some ++ none :: l2.map some) := by
  induction xs with
  | nil => cases h
  | cons x rest ih =>
    by_cases hx : x = event
    · refine ⟨[], rest, by rw [hx]; rfl, ?_⟩
      simp [EventListenerSet.removeFirst, hx]
    · have hmem : event ∈ rest := by
        rcases List.mem_cons.1 h with e | e
        · exact absurd e.symm hx
        · exact e
      obtain ⟨l1, l2, hsplit, hrem⟩ := ih hmem
      refine ⟨x :: l1, l2, by rw [hsplit]; rfl, ?_⟩
      simp [EventListenerSet.removeFirst, hx, hrem]

/-- Claim C16: on the registry of the specification, ten registrations
starting from the empty registry all succeed (whatever the bundles are, so in
particular for distinct ones); every further registration fails with the
table-full code and changes nothing; and after unregistering any one of the
ten, one registration succeeds and the next one fails with the table-full
code. -/
theorem registry_bounded (bundles : List WifiEvent)
    (h10 : bundles.length = WIFI_MAX_EVENT_SIZE) :
    ∃ full, registerAll EventListenerSet.empty bundles = some full ∧
      (∀ extra, RegisterWifiEvent full extra = (WifiErrorCode.ListenerTableFull, full)) ∧
      (∀ b ∈ bundles, ∀ extra another,
        (UnRegisterWifiEvent full b).1 = WifiErrorCode.WIFI_SUCCESS ∧
        (RegisterWifiEvent (UnRegisterWifiEvent full b).2 extra).1 =
          WifiErrorCode.WIFI_SUCCESS ∧
        (RegisterWifiEvent (RegisterWifiEvent (UnRegisterWifiEvent full b).2 extra).2
          another).1 = WifiErrorCode.ListenerTableFull) := by
  refine ⟨bundles.map some, ?_, ?_, ?_⟩
  · have := registerAll_fill bundles [] 0 (by simp only [List.length_nil]; omega)
    simp only [List.map_nil, List.nil_append, Nat.add_zero, List.replicate_zero,
      List.append_nil] at this
    unfold EventListenerSet.empty
    rw [← h10]
    exact this
  · intro extra
    exact RegisterWifiEvent_full bundles h10 extra
  · intro b hb extra another
    obtain ⟨l1, l2, hsplit, hrem⟩ := removeFirst_map_some bundles b hb
    have hlen : l1.length + l2.length + 1 = WIFI_MAX_EVENT_SIZE := by
      rw [← h10, hsplit]; simp; omega
    have hun : UnRegisterWifiEvent (bundles.map some) b =
        (WifiErrorCode.WIFI_SUCCESS, l1.map some ++ none :: l2.map some) := by
      unfold UnRegisterWifiEvent
      rw [hrem]
    have hreg : RegisterWifiEvent (l1.map some ++ none :: l2.map some) extra =
        (WifiErrorCode.WIFI_SUCCESS, (l1 ++ extra :: l2).map some) := by
      unfold RegisterWifiEvent
      rw [occupied_with_gap, if_neg (by omega), fillFirstEmpty_first_gap]
      simp
    have hfull := RegisterWifiEvent_full (l1 ++ extra :: l2)
      (by simp only [List.length_append, List.length_cons]; omega) another
    rw [hun, hreg, hfull]
    exact ⟨rfl, rfl, rfl⟩

theorem registry_bounded_witness :
    sampleBundles.length = WIFI_MAX_EVENT_SIZE ∧
    ∃ full, registerAll EventListenerSet.empty sampleBundles = some full ∧
      (∀ extra, RegisterWifiEvent full extra = (WifiErrorCode.ListenerTableFull, full)) ∧
      (∀ b ∈ sampleBundles, ∀ extra another,
        (UnRegisterWifiEvent full b).1 = WifiErrorCode.WIFI_SUCCESS ∧
        (RegisterWifiEvent (UnRegisterWifiEvent full b).2 extra).1 =
          WifiErrorCode.WIFI_SUCCESS ∧
        (RegisterWifiEvent (RegisterWifiEvent (UnRegisterWifiEvent full b).2 extra).2
          another).1 = WifiErrorCode.ListenerTableFull) :=
  ⟨by decide, registry_bounded sampleBundles (by decide)⟩

/-! ## Pieces produced by the splitting -/

theorem not_infix_nil_of_ne (split : List Char) (hsplit : split ≠ []) : ¬ split <:+: [] := by
  intro h
  exact hsplit (List.infix_nil.1 h)

theorem firstOccurrence_none_not_infix (split : List Char) (hsplit : split ≠ []) :
    ∀ s : List Char, firstOccurrence split s = none → ¬ split <:+: s := by
  intro s
  induction s with
  | nil => intro _; exact not_infix_nil_of_ne split hsplit
  | cons c cs ih =>
    intro h
    unfold firstOccurrence at h
    split_ifs at h with hp
    have hcs : firstOccurrence split cs = none := by
      cases hf : firstOccurrence split cs with
      | none => rfl
      | some r => rw [hf] at h; cases h
    intro hin
    rcases List.infix_cons_iff.1 hin with hpre | hinf
    · exact hp (List.isPrefixOf_iff_prefix.2 hpre)
    · exact ih hcs hinf

theorem firstOccurrence_some_not_infix (split : List Char) (hsplit : split ≠ []) :
    ∀ s piece rest : List Char, firstOccurrence split s = some (piece, rest) →
      ¬ split <:+: piece := by
  intro s
  induction s with
  | nil =>
    intro piece rest h
    unfold firstOccurrence at h
    split_ifs at h with hp
    cases h
    exact not_infix_nil_of_ne split hsplit
  | cons c cs ih =>
    intro piece rest h
    unfold firstOccurrence at h
    split_ifs at h with hp
    · cases h
      exact not_infix_nil_of_ne split hsplit
    · cases hf : firstOccurrence split cs with
      | none => rw [hf] at h; cases h
      | some r =>
        rw [hf] at h
        simp only [Option.map_some', Option.some.injEq, Prod.mk.injEq] at h
        obtain ⟨h1, h2⟩ := h
        subst h1 h2
        have hdec := firstOccurrence_some split cs r.1 r.2 hf
        intro hin
        rcases List.infix_cons_iff.1 hin with hpre | hinf
        · apply hp
          apply List.isPrefixOf_iff_prefix.2
          refine hpre.trans ?_
          rw [hdec]
          exact ⟨split ++ r.2, by simp⟩
        · exact ih r.1 r.2 hf hinf

theorem specPieces_not_infix (split : List Char) (hsplit : split ≠ []) (n : Nat) :
    ∀ s : List Char, s.length ≤ n → ∀ piece ∈ specPieces split n s, ¬ split <:+: piece := by
  induction n with
  | zero =>
    intro s hs piece hmem
    have hnil : s = [] := List.length_eq_zero.1 (Nat.le_zero.1 hs)
    subst hnil
    rw [specPieces, List.mem_singleton] at hmem
    rw [hmem]
    exact not_infix_nil_of_ne split hsplit
  | succ n ih =>
    intro s hs piece hmem
    have hsl : 0 < split.length := List.length_pos.2 hsplit
    cases hf : firstOccurrence split s with
    | none =>
      rw [specPieces_succ_none split n s hf, List.mem_singleton] at hmem
      rw [hmem]
      exact firstOccurrence_none_not_infix split hsplit s hf
    | some r =>
      obtain ⟨first, rest⟩ := r
      have hdec := firstOccurrence_some split s first rest hf
      have hlen : s.length = first.length + (split.length + rest.length) := by
        rw [hdec]; simp
      rw [specPieces_succ_some split n s first rest hf] at hmem
      rcases List.mem_cons.1 hmem with e | e
      · rw [e]
        exact firstOccurrence_some_not_infix split hsplit s first rest hf
      · exact ih rest (by omega) piece e

/-- Claim C17: for a non-empty delimiter, `SplitString` returns the vector it
was given followed by the elements it appended, and none of the appended
elements is empty or contains the delimiter as a substring; with input `aaa`
and delimiter `aa` the one element appended is `a`. -/
theorem SplitString_appended_pieces :
    (∀ (str split : List Char) (vec : List (List Char)), split ≠ [] →
      ∃ added, SplitString str split vec = some (vec ++ added) ∧
        ∀ piece ∈ added, piece ≠ [] ∧ ¬ split <:+: piece) ∧
    SplitString ['a', 'a', 'a'] ['a', 'a'] [] = some [['a']] := by
  refine ⟨?_, by decide⟩
  intro str split vec hsplit
  have hne : split.isEmpty = false := by
    cases split with
    | nil => exact absurd rfl hsplit
    | cons c cs => rfl
  refine ⟨(specPieces split str.length (str.drop 0)).filter (fun piece => piece ≠ []), ?_, ?_⟩
  · unfold SplitString
    simp only [hne]
    exact SplitString_loop_eq str split hsplit str.length 0 vec (Nat.zero_le _) (by simp)
  · intro piece hmem
    obtain ⟨hin, hnz⟩ := List.mem_filter.1 hmem
    refine ⟨by simpa using hnz, ?_⟩
    exact specPieces_not_infix split hsplit str.length (str.drop 0) (by simp) piece hin

theorem SplitString_appended_pieces_witness :
    ∃ added, SplitString ['x', 'a', 'b', 'y', 'a', 'b', 'a', 'b'] ['a', 'b'] [['k']] =
        some ([['k']] ++ added) ∧
      ∀ piece ∈ added, piece ≠ [] ∧ ¬ ['a', 'b'] <:+: piece :=
  SplitString_appended_pieces.1 ['x', 'a', 'b', 'y', 'a', 'b', 'a', 'b'] ['a', 'b'] [['k']]
    (by decide)

/-! ## Channels and bands -/

theorem TransformFrequencyIntoChannel_single (f c : Int) :
    TransformFrequencyIntoChannel [f] [] = [c] ↔ specChannel f = some c := by
  rw [TransformFrequencyIntoChannel_acc]
  cases h : specChannel f <;> simp [h]

theorem specChannel_some_bounds (f c : Int) (h : specChannel f = some c) :
    ((2400 < f ∧ f < 2500 ∧ 1 ≤ c ∧ c ≤ 14) ∨ (4900 < f ∧ f < 5900 ∧ 34 ≤ c ∧ c ≤ 165)) := by
  unfold specChannel at h
  split_ifs at h with h1 h2 h3
  · simp only [Option.some.injEq] at h
    omega
  · simp only [Option.some.injEq] at h
    omega
  · simp only [Option.some.injEq] at h
    omega

/-- Claim C18: a frequency that `TransformFrequencyIntoChannel` keeps is in
exactly one of the two bands of `IsValid24GHz` and `IsValid5GHz`; its channel
lies in 1..14 in the first case and in 34..165 in the second, so every
channel of an output lies in one of these two ranges. -/
theorem TransformFrequencyIntoChannel_agrees_with_bands :
    (∀ f c : Int, TransformFrequencyIntoChannel [f] [] = [c] →
      (IsValid24GHz f = true ∨ IsValid5GHz f = true) ∧
      ¬ (IsValid24GHz f = true ∧ IsValid5GHz f = true) ∧
      (IsValid24GHz f = true → 1 ≤ c ∧ c ≤ 14) ∧
      (IsValid5GHz f = true → 34 ≤ c ∧ c ≤ 165)) ∧
    (∀ (freqs : List Int), ∀ c ∈ TransformFrequencyIntoChannel freqs [],
      (1 ≤ c ∧ c ≤ 14) ∨ (34 ≤ c ∧ c ≤ 165)) := by
  constructor
  · intro f c h
    have hb := specChannel_some_bounds f c ((TransformFrequencyIntoChannel_single f c).1 h)
    unfold IsValid24GHz IsValid5GHz
    simp only [Bool.and_eq_true, decide_eq_true_eq, gt_iff_lt]
    omega
  · intro freqs c hc
    rw [TransformFrequencyIntoChannel_acc, List.nil_append, List.mem_filterMap] at hc
    obtain ⟨f, _, hf⟩ := hc
    have hb := specChannel_some_bounds f c hf
    omega

theorem TransformFrequencyIntoChannel_agrees_with_bands_witness :
    (IsValid24GHz 2437 = true ∨ IsValid5GHz 2437 = true) ∧
    ¬ (IsValid24GHz 2437 = true ∧ IsValid5GHz 2437 = true) ∧
    (IsValid24GHz 2437 = true → (1 : Int) ≤ 6 ∧ (6 : Int) ≤ 14) ∧
    (IsValid5GHz 2437 = true → (34 : Int) ≤ 6 ∧ (6 : Int) ≤ 165) :=
  TransformFrequencyIntoChannel_agrees_with_bands.1 2437 6 (by decide)

/-! ## Self-correction, once more -/

/-- The two outcomes of `CheckBandChannel`. -/
theorem CheckBandChannel_dichotomy (d : WifiDefs) (cfg : HotspotConfig) (tbl : ChannelsTable) :
    ((∃ chans, ChannelsTable.find tbl cfg.band = some chans ∧ cfg.channel ∈ chans) ∧
      CheckBandChannel d cfg tbl = cfg) ∨
    ((¬ ∃ chans, ChannelsTable.find tbl cfg.band = some chans ∧ cfg.channel ∈ chans) ∧
      CheckBandChannel d cfg tbl =
        { cfg with band := BandType.BAND_2GHZ, channel := d.AP_CHANNEL_DEFAULT }) := by
  unfold CheckBandChannel
  cases hf : ChannelsTable.find tbl cfg.band with
  | none => simp
  | some chans =>
    by_cases hm : cfg.channel ∈ chans
    · have hs := (CheckBandChannel_scan_iff chans cfg.channel).2 hm
      have hl : chans.length ≠ 0 := by
        cases chans with
        | nil => simp at hm
        | cons c cs => simp
      simp [hm, hs, hl]
    · have hs : CheckBandChannel.scan chans cfg.channel = false := by
        cases h : CheckBandChannel.scan chans cfg.channel
        · rfl
        · exact absurd ((CheckBandChannel_scan_iff chans cfg.channel).1 h) hm
      simp [hm, hs]

/-- Claim C19: applying `CheckBandChannel` twice with the same table gives the
configuration that one application gives, whether or not the default pair is
listed in the table, and the SSID, the key and the security type are never
changed. -/
theorem CheckBandChannel_idempotent (d : WifiDefs) (cfg : HotspotConfig)
    (tbl : ChannelsTable) :
    CheckBandChannel d (CheckBandChannel d cfg tbl) tbl = CheckBandChannel d cfg tbl ∧
    (CheckBandChannel d cfg tbl).ssid = cfg.ssid ∧
    (CheckBandChannel d cfg tbl).preSharedKey = cfg.preSharedKey ∧
    (CheckBandChannel d cfg tbl).securityType = cfg.securityType := by
  rcases CheckBandChannel_dichotomy d cfg tbl with ⟨_, h⟩ | ⟨_, h⟩
  · rw [h, h]
    exact ⟨rfl, rfl, rfl, rfl⟩
  · rw [h]
    refine ⟨?_, rfl, rfl, rfl⟩
    rcases CheckBandChannel_dichotomy d
      { cfg with band := BandType.BAND_2GHZ, channel := d.AP_CHANNEL_DEFAULT } tbl with
      ⟨_, h2⟩ | ⟨_, h2⟩
    · exact h2
    · exact h2

/-- Claim C20: a configuration that `IsValidHotspotConfig` accepts and whose
channel is not the centre's is left as it is by `CheckBandChannel`, run with
the table given to the validator or with the table the validator leaves
behind; a configuration accepted on the centre's channel can carry a channel
that is not listed for its band and is then reset. -/
theorem accepted_config_survives_CheckBandChannel :
    (∀ (d : WifiDefs) (cfg center : HotspotConfig) (bands : List BandType)
        (tbl : ChannelsTable),
      (IsValidHotspotConfig d cfg center bands tbl).1 = ErrCode.WIFI_OPT_SUCCESS →
      cfg.channel ≠ center.channel →
      CheckBandChannel d cfg tbl = cfg ∧
      CheckBandChannel d cfg (IsValidHotspotConfig d cfg center bands tbl).2 = cfg) ∧
    ((IsValidHotspotConfig sampleDefs sampleCenterChannel5GHz sampleCenter
        [BandType.BAND_5GHZ] sampleTable).1 = ErrCode.WIFI_OPT_SUCCESS ∧
      CheckBandChannel sampleDefs sampleCenterChannel5GHz sampleTable ≠
        sampleCenterChannel5GHz) := by
  refine ⟨?_, by decide, by decide⟩
  intro d cfg center bands tbl hacc hch
  have hstage := (IsValidHotspotConfig_stages d cfg center bands tbl).1 hacc
  have hbc := (bandAndChannel_success_iff cfg center bands tbl).1 hstage.2.2
  have hmem : cfg.channel ∈ (ChannelsTable.find tbl cfg.band).getD [] := by
    rw [← ChannelsTable_index_fst]
    rcases hbc.2 with e | e
    · exact absurd e hch
    · exact e
  have hsome : ∃ chans, ChannelsTable.find tbl cfg.band = some chans ∧ cfg.channel ∈ chans := by
    cases hf : ChannelsTable.find tbl cfg.band with
    | none => rw [hf] at hmem; simp at hmem
    | some chans => rw [hf] at hmem; exact ⟨chans, rfl, hmem⟩
  have hkept : (IsValidHotspotConfig d cfg center bands tbl).2 = tbl := by
    apply IsValidHotspotConfig_table_kept
    obtain ⟨chans, hf, _⟩ := hsome
    left
    rw [hf]
    rfl
  rw [hkept]
  rcases CheckBandChannel_dichotomy d cfg tbl with ⟨_, h⟩ | ⟨hn, _⟩
  · exact ⟨h, h⟩
  · exact absurd hsome hn

theorem accepted_config_survives_CheckBandChannel_witness :
    (IsValidHotspotConfig sampleDefs sampleWpa2 sampleCenter [] sampleTable).1 =
      ErrCode.WIFI_OPT_SUCCESS ∧
    sampleWpa2.channel ≠ sampleCenter.channel ∧
    CheckBandChannel sampleDefs sampleWpa2 sampleTable = sampleWpa2 ∧
    CheckBandChannel sampleDefs sampleWpa2
      (IsValidHotspotConfig sampleDefs sampleWpa2 sampleCenter [] sampleTable).2 = sampleWpa2 :=
  ⟨by decide, by decide,
    accepted_config_survives_CheckBandChannel.1 sampleDefs sampleWpa2 sampleCenter []
      sampleTable (by decide) (by decide)⟩

end OHOS.Wifi
